import Mathlib

/-!
Shallow embedding of the wetty-chat backend core
(`src/backend/src/ws_registry.rs`, `src/backend/src/handlers/*.rs`,
`src/backend/src/main.rs`) and proofs about its specified behaviour.

Machine integers are modelled as `Int`/`Nat` (`u64` timestamps as `Nat`,
`now.saturating_sub x` as truncated `Nat` subtraction, which matches the
saturating semantics exactly for the in-range values that occur).
`DateTime<Utc>` timestamps are modelled as `Int` seconds since the Unix
epoch, so the SQL sentinel `'1970-01-01'::timestamptz` is `0`.
Fallible handlers return `Except (Status × String) α`, mirroring the
Rust `Result<_, (StatusCode, &'static str)>`.
-/

deriving instance DecidableEq for Except

namespace WettyChat

/-! ## Connection registry (`ws_registry.rs`) -/

/-- Channel capacity of the per-connection mpsc channel:
`mpsc::channel(64)` in `ConnectionRegistry::register`. -/
def channelCapacity : Nat := 64

/-- `ConnectionEntry`: per-connection state.  The `tx` side of the bounded
mpsc channel is modelled by the channel's pending queue (`queue`);
`try_send` succeeds exactly when the queue is below capacity. -/
structure ConnectionEntry where
  conn_id : Nat
  queue : List String
  last_ping_at : Nat
deriving Repr, DecidableEq

/-- `ConnectionRegistry`: the dashmap from uid to the vector of live
connections, modelled as an association list, together with the
process-wide `NEXT_CONN_ID` counter. -/
structure ConnectionRegistry where
  next_conn_id : Nat
  inner : List (Int × List ConnectionEntry)
deriving Repr, DecidableEq

/-- The registry at process start: counter `0`, no connections. -/
def emptyRegistry : ConnectionRegistry := ⟨0, []⟩

/-- Look up the connection vector of a uid (`self.inner.get(&uid)`). -/
def lookupUid (r : ConnectionRegistry) (uid : Int) : Option (List ConnectionEntry) :=
  (r.inner.find? (fun p => p.1 == uid)).map (·.2)

/-- `ConnectionRegistry::register`: allocate the next connection id, create
the entry with `last_ping_at = now` and an empty channel, and push it onto
the uid's vector (`entry(uid).or_default().push(entry)`). -/
def register (r : ConnectionRegistry) (uid : Int) (now : Nat) :
    ConnectionRegistry × Nat :=
  let cid := r.next_conn_id
  let entry : ConnectionEntry := ⟨cid, [], now⟩
  let inner :=
    if r.inner.any (fun p => p.1 == uid) then
      r.inner.map (fun p => if p.1 == uid then (p.1, p.2 ++ [entry]) else p)
    else
      r.inner ++ [(uid, [entry])]
  (⟨cid + 1, inner⟩, cid)

/-- `ConnectionRegistry::remove_connection`: retain entries whose id
differs, then drop the uid's map entry if its vector became empty. -/
def remove_connection (r : ConnectionRegistry) (uid : Int) (cid : Nat) :
    ConnectionRegistry :=
  let inner := r.inner.map (fun p =>
    if p.1 == uid then (p.1, p.2.filter (fun e => e.conn_id != cid)) else p)
  ⟨r.next_conn_id, inner.filter (fun p => !(p.1 == uid && p.2.isEmpty))⟩

/-- `tx.try_send(message)`: enqueue when below capacity, otherwise drop
the message (the `is_err` branch only logs). -/
def trySend (e : ConnectionEntry) (msg : String) : ConnectionEntry :=
  if e.queue.length < channelCapacity then
    { e with queue := e.queue ++ [msg] }
  else
    e

/-- One iteration of the outer loop of `broadcast_to_uids`: try-send to
every connection of `uid` when present, otherwise do nothing. -/
def broadcastOne (inner : List (Int × List ConnectionEntry)) (uid : Int)
    (msg : String) : List (Int × List ConnectionEntry) :=
  inner.map (fun p =>
    if p.1 == uid then (p.1, p.2.map (fun e => trySend e msg)) else p)

/-- `ConnectionRegistry::broadcast_to_uids`: iterate the uid slice in
order; failures are absorbed, nothing is removed, nothing is returned. -/
def broadcast_to_uids (r : ConnectionRegistry) (uids : List Int)
    (msg : String) : ConnectionRegistry :=
  ⟨r.next_conn_id, uids.foldl (fun acc uid => broadcastOne acc uid msg) r.inner⟩

/-- The stale connection ids of one uid's vector:
`now.saturating_sub(e.last_ping_at) > max_age_secs`. -/
def staleIds (v : List ConnectionEntry) (now maxAge : Nat) : List Nat :=
  (v.filter (fun e => now - e.last_ping_at > maxAge)).map (·.conn_id)

/-- The per-uid effect of one `prune_stale` sweep: uids with no stale
connection are untouched (they are never pushed onto `uids_to_trim`);
otherwise the non-stale entries are retained and the uid is dropped when
its vector became empty. -/
def pruneStep (maxAge now : Nat) (p : Int × List ConnectionEntry) :
    Option (Int × List ConnectionEntry) :=
  let stale := staleIds p.2 now maxAge
  if stale.isEmpty then
    some p
  else
    let kept := p.2.filter (fun e => !stale.contains e.conn_id)
    if kept.isEmpty then none else some (p.1, kept)

/-- `ConnectionRegistry::prune_stale`: collect `(uid, stale ids)` for uids
with a non-empty stale set, then retain the non-stale entries and remove
the uid when its vector became empty. -/
def prune_stale (r : ConnectionRegistry) (maxAge now : Nat) :
    ConnectionRegistry :=
  ⟨r.next_conn_id, r.inner.filterMap (pruneStep maxAge now)⟩

/-- The registry operations reachable from the outside (used to state
invariants over every operation sequence). -/
inductive RegOp where
  | doRegister (uid : Int) (now : Nat)
  | doRemove (uid : Int) (cid : Nat)
  | doPrune (maxAge : Nat) (now : Nat)
deriving Repr, DecidableEq

/-- Apply one registry operation. -/
def applyOp (r : ConnectionRegistry) : RegOp → ConnectionRegistry
  | .doRegister uid now => (register r uid now).1
  | .doRemove uid cid => remove_connection r uid cid
  | .doPrune maxAge now => prune_stale r maxAge now

/-- Apply a sequence of registry operations in order. -/
def applyOps (r : ConnectionRegistry) (ops : List RegOp) : ConnectionRegistry :=
  ops.foldl applyOp r

/-- Invariant: every uid present in the map has a non-empty vector. -/
def allNonEmpty (r : ConnectionRegistry) : Prop :=
  ∀ p ∈ r.inner, p.2 ≠ []

instance (r : ConnectionRegistry) : Decidable (allNonEmpty r) := by
  unfold allNonEmpty
  infer_instance

/-! ## Data model (`models.rs`, `schema.rs`) -/

/-- The `messages` row (`models::Message`; primary key `id`). -/
structure Message where
  id : Int
  message : Option String
  message_type : String
  reply_to_id : Option Int
  reply_root_id : Option Int
  client_generated_id : String
  sender_uid : Int
  chat_id : Int
  created_at : Int
  updated_at : Option Int
  deleted_at : Option Int
  has_attachments : Bool
deriving Repr, DecidableEq

/-- The `groups` row (`name` is nullable in the schema). -/
structure Group where
  id : Int
  name : Option String
  created_at : Int
deriving Repr, DecidableEq

/-- The `group_membership` row.  Data-model invariant (spec §3, primary
key in the schema): a `(chat_id, uid)` pair appears at most once. -/
structure GroupMembership where
  chat_id : Int
  uid : Int
  role : String
  joined_at : Int
deriving Repr, DecidableEq

/-- Snapshot of the persistent store as seen by the handlers. -/
structure DB where
  groups : List Group
  memberships : List GroupMembership
  messages : List Message
deriving Repr, DecidableEq

/-- HTTP status codes used by the handlers under verification. -/
inductive Status where
  | ok | created | noContent | badRequest | unauthorized
  | forbidden | notFound | gone | internalServerError
deriving Repr, DecidableEq

/-- `(StatusCode, &'static str)` error payloads. -/
abbrev HandlerError := Status × String

/-- `handlers::messages::ReplyToMessage` (the compact reply preview). -/
structure ReplyToMessage where
  id : Int
  message : Option String
  sender_uid : Int
  deleted_at : Option Int
deriving Repr, DecidableEq

/-- `handlers::messages::MessageResponse`. -/
structure MessageResponse where
  id : Int
  message : Option String
  message_type : String
  reply_to_id : Option Int
  reply_root_id : Option Int
  client_generated_id : String
  sender_uid : Int
  chat_id : Int
  created_at : Int
  updated_at : Option Int
  deleted_at : Option Int
  has_attachments : Bool
  reply_to_message : Option ReplyToMessage
deriving Repr, DecidableEq

/-- `impl From<Message> for MessageResponse` (no reply preview). -/
def MessageResponse.fromMessage (m : Message) : MessageResponse :=
  { id := m.id
    message := m.message
    message_type := m.message_type
    reply_to_id := m.reply_to_id
    reply_root_id := m.reply_root_id
    client_generated_id := m.client_generated_id
    sender_uid := m.sender_uid
    chat_id := m.chat_id
    created_at := m.created_at
    updated_at := m.updated_at
    deleted_at := m.deleted_at
    has_attachments := m.has_attachments
    reply_to_message := none }

/-- Observable side effects of a write handler, in program order:
`persist` marks the acknowledged storage write, `broadcastEv` the
subsequent `ws_registry.broadcast_to_uids` call. -/
inductive TraceEvent where
  | persist
  | broadcastEv (etype : String) (payload : MessageResponse) (uids : List Int)
deriving Repr, DecidableEq

/-- The payloads of the broadcast events of a trace, in order. -/
def broadcastPayloads : List TraceEvent → List MessageResponse
  | [] => []
  | .persist :: ts => broadcastPayloads ts
  | .broadcastEv _ p _ :: ts => p :: broadcastPayloads ts

/-- `true` iff no broadcast event occurs before the first acknowledged
persistence write: the formalisation of "the broadcast is issued only
after the persistence write is acknowledged". -/
def noBroadcastBeforePersist : List TraceEvent → Bool
  | [] => true
  | .broadcastEv _ _ _ :: _ => false
  | .persist :: _ => true

/-! ## Shared handler helpers (`handlers/messages.rs`, `handlers/chats.rs`) -/

/-- Number of membership rows for `(chat_id, uid)` (the diesel
`count().get_result` in `check_membership`). -/
def membershipCount (db : DB) (chat_id uid : Int) : Nat :=
  (db.memberships.filter (fun m => m.chat_id == chat_id && m.uid == uid)).length

/-- `check_membership`: 403 when the count is zero. -/
def check_membership (db : DB) (chat_id uid : Int) : Except HandlerError Unit :=
  if membershipCount db chat_id uid = 0 then
    .error (.forbidden, "Not a member of this chat")
  else
    .ok ()

/-- `MAX_CHATS_LIMIT` (`main.rs`). -/
def MAX_CHATS_LIMIT : Int := 100

/-- `MAX_MESSAGES_LIMIT` (`main.rs`). -/
def MAX_MESSAGES_LIMIT : Int := 100

/-- The limit computation shared by both listings:
`q.limit.map(|l| min(l, MAX)).unwrap_or(MAX).max(1)`. -/
def effectiveLimit (q : Option Int) (maxLimit : Int) : Int :=
  (max ((q.map (fun l => min l maxLimit)).getD maxLimit) 1)

/-- Rust `char::is_whitespace`: the Unicode White_Space property —
U+0009..U+000D, U+0020, U+0085, U+00A0, U+1680, U+2000..U+200A,
U+2028, U+2029, U+202F, U+205F, U+3000. -/
def rustIsWhitespace (c : Char) : Bool :=
  (0x09 ≤ c.toNat && c.toNat ≤ 0x0D) || c.toNat = 0x20 || c.toNat = 0x85 ||
    c.toNat = 0xA0 || c.toNat = 0x1680 ||
    (0x2000 ≤ c.toNat && c.toNat ≤ 0x200A) || c.toNat = 0x2028 ||
    c.toNat = 0x2029 || c.toNat = 0x202F || c.toNat = 0x205F ||
    c.toNat = 0x3000

/-- Rust `str::trim` on the character list: strip leading and trailing
Unicode White_Space. -/
def trimChars (cs : List Char) : List Char :=
  ((cs.dropWhile rustIsWhitespace).reverse.dropWhile rustIsWhitespace).reverse

/-- Rust `str::trim` (kernel-reducible, with Rust's Unicode
White_Space set rather than `Char.isWhitespace`). -/
def rustTrim (s : String) : String := ⟨trimChars s.data⟩

/-- Member uids of a chat (`group_membership` filtered by `chat_id`,
selecting `uid`) — the fan-out target of every broadcast. -/
def memberUids (db : DB) (chat_id : Int) : List Int :=
  (db.memberships.filter (fun m => m.chat_id == chat_id)).map (·.uid)

/-- Insert into a list sorted by the strict-or-equal comparator `le`. -/
def insertSorted (le : α → α → Bool) (a : α) : List α → List α
  | [] => [a]
  | b :: bs => if le a b then a :: b :: bs else b :: insertSorted le a bs

/-- Insertion sort: the model of a SQL `ORDER BY`. -/
def sortedBy (le : α → α → Bool) (l : List α) : List α :=
  l.foldr (insertSorted le) []

/-! ## Message listing (`handlers/messages.rs::get_messages`) -/

/-- `ORDER BY id DESC` comparator for messages. -/
def msgIdDescLe (a b : Message) : Bool := a.id ≥ b.id

/-- The rows matched by the `get_messages` store query, before
`ORDER BY`/`LIMIT`: `chat_id = X` and, with a cursor, `id < before`. -/
def messagesBase (db : DB) (chat_id : Int) (before : Option Int) : List Message :=
  match before with
  | none => db.messages.filter (fun m => m.chat_id == chat_id)
  | some b => db.messages.filter (fun m => m.chat_id == chat_id && m.id < b)

/-- `ListMessagesResponse`. -/
structure ListMessagesResponse where
  messages : List MessageResponse
  next_cursor : Option Int
deriving Repr, DecidableEq

/-- The reply-preview resolution and response building of
`get_messages` over the truncated page: collect the distinct
`reply_to_id`s, fetch all referenced rows in one batch
(`id.eq_any(reply_ids)`), and attach the preview to each response.  The
batch lookup's hash map is modelled by `find?` over the matching rows;
under the primary key on `messages.id` at most one row matches each
reply id, so first-match and last-insert-wins coincide. -/
def messagesPageItems (db : DB) (messages_to_process : List Message) :
    List MessageResponse :=
  let reply_ids := messages_to_process.filterMap (·.reply_to_id)
  let reply_rows := db.messages.filter (fun m => reply_ids.contains m.id)
  messages_to_process.map (fun m =>
    let reply_to_message := m.reply_to_id.bind (fun rid =>
      (reply_rows.find? (fun r => r.id == rid)).map (fun r =>
        ReplyToMessage.mk r.id r.message r.sender_uid r.deleted_at))
    { MessageResponse.fromMessage m with reply_to_message := reply_to_message })

/-- The tail of `get_messages` on the `limit + 1` row set: has-more
detection, truncation to the limit, reply resolution, cursor emission
(`has_more.then(|| messages_vec.last().map(|m| m.id)).flatten()`). -/
def messagesPage (db : DB) (rows : List Message) (maxL : Int) :
    ListMessagesResponse :=
  let has_more := decide ((rows.length : Int) > maxL)
  let messages_vec := messagesPageItems db (rows.take maxL.toNat)
  let next_cursor := if has_more then messages_vec.getLast?.map (·.id) else none
  ⟨messages_vec, next_cursor⟩

/-- `GET /chats/:chat_id/messages` (`get_messages`): membership check,
limit clamping, keyset query ordered by `id DESC` with `limit + 1`,
then the page construction. -/
def get_messages (db : DB) (uid chat_id : Int) (before maxQ : Option Int) :
    Except HandlerError ListMessagesResponse :=
  match check_membership db chat_id uid with
  | .error e => .error e
  | .ok _ =>
    let maxL := effectiveLimit maxQ MAX_MESSAGES_LIMIT
    let rows := (sortedBy msgIdDescLe (messagesBase db chat_id before)).take
      (maxL.toNat + 1)
    .ok (messagesPage db rows maxL)

/-! ## Chat listing (`handlers/chats.rs::get_chats`) -/

/-- `(SELECT max(m.created_at) FROM messages m WHERE m.chat_id = g.id)`:
the correlated last-activity lookup; `none` when the chat has no
messages. -/
def lastMessageAt (db : DB) (chat_id : Int) : Option Int :=
  ((db.messages.filter (fun m => m.chat_id == chat_id)).map (·.created_at)).max?

/-- Row shape of the raw chat-listing query (`ChatListRow`). -/
structure ChatListRow where
  id : Int
  name : Option String
  created_at : Int
  last_message_at : Option Int
deriving Repr, DecidableEq

/-- `ChatListItem` of the response. -/
structure ChatListItem where
  id : Int
  name : Option String
  last_message_at : Option Int
deriving Repr, DecidableEq

/-- `ListChatsResponse`. -/
structure ListChatsResponse where
  chats : List ChatListItem
  next_cursor : Option Int
deriving Repr, DecidableEq

/-- The `groups INNER JOIN group_membership ON gm.chat_id = g.id AND
gm.uid = $1` row set with the correlated `last_message_at`.  Under the
membership data-model invariant (a `(chat, uid)` pair at most once) the
join yields each group at most once, so it is a filter. -/
def chatRows (db : DB) (uid : Int) : List ChatListRow :=
  (db.groups.filter (fun g =>
      db.memberships.any (fun m => m.chat_id == g.id && m.uid == uid))).map
    (fun g => ⟨g.id, g.name, g.created_at, lastMessageAt db g.id⟩)

/-- `ORDER BY last_message_at DESC NULLS LAST, id DESC` as a
strict-or-equal comparator: `a` sorts at-or-before `b`. -/
def chatKeyLe (a b : ChatListRow) : Bool :=
  match a.last_message_at, b.last_message_at with
  | some ta, some tb => ta > tb || (ta == tb && a.id ≥ b.id)
  | some _, none => true
  | none, some _ => false
  | none, none => a.id ≥ b.id

/-- Strict listing order: `a` is listed strictly before `b` under
`last_message_at DESC NULLS LAST, id DESC`. -/
def chatRowBefore (a b : ChatListRow) : Bool :=
  match a.last_message_at, b.last_message_at with
  | some ta, some tb => ta > tb || (ta == tb && a.id > b.id)
  | some _, none => true
  | none, some _ => false
  | none, none => a.id > b.id

/-- `COALESCE(t, '1970-01-01'::timestamptz)`: the epoch sentinel. -/
def coalesceEpoch (t : Option Int) : Int := t.getD 0

/-- The cursor filter of the keyset query:
`(COALESCE(last_message_at, epoch), id) < (COALESCE($2, epoch), $3)`
— lexicographic strictly-less on the coalesced pair. -/
def cursorPairLt (lma : Option Int) (id : Int)
    (cursor_at : Option Int) (cursor_id : Int) : Bool :=
  coalesceEpoch lma < coalesceEpoch cursor_at ||
    (coalesceEpoch lma == coalesceEpoch cursor_at && id < cursor_id)

/-- Resolution of the cursor row: the group with `g.id = after` of which
`uid` is a member, with its `last_message_at` (the `CursorRow` query). -/
def cursorRow (db : DB) (uid after_id : Int) : Option (Option Int × Int) :=
  (db.groups.find? (fun g =>
      g.id == after_id &&
        db.memberships.any (fun m => m.chat_id == g.id && m.uid == uid))).map
    (fun g => (lastMessageAt db g.id, g.id))

/-- The shared tail of `get_chats`: has-more detection on the
`limit + 1` row set, truncation, and cursor emission
(`has_more.then(|| chats.last().map(|c| c.id)).flatten()`). -/
def chatsPage (rows : List ChatListRow) (limit : Int) : ListChatsResponse :=
  let has_more := decide ((rows.length : Int) > limit)
  let chats := (rows.take limit.toNat).map (fun r =>
    ChatListItem.mk r.id r.name r.last_message_at)
  let next_cursor := if has_more then chats.getLast?.map (·.id) else none
  ⟨chats, next_cursor⟩

/-- `GET /chats` (`get_chats`): limit clamping, optional keyset cursor
(early `Ok` with an empty page when the cursor chat is not found for this
uid), ordered query with `limit + 1`, has-more detection, cursor
emission. -/
def get_chats (db : DB) (uid : Int) (limitQ after : Option Int) :
    Except HandlerError ListChatsResponse :=
  let limit := effectiveLimit limitQ MAX_CHATS_LIMIT
  match after with
  | none =>
    .ok (chatsPage ((sortedBy chatKeyLe (chatRows db uid)).take (limit.toNat + 1)) limit)
  | some after_id =>
    match cursorRow db uid after_id with
    | none => .ok ⟨[], none⟩
    | some (cursor_at, cursor_id) =>
      .ok (chatsPage
        ((sortedBy chatKeyLe ((chatRows db uid).filter (fun r =>
            cursorPairLt r.last_message_at r.id cursor_at cursor_id))).take
          (limit.toNat + 1)) limit)

/-! ## Write handlers (`handlers/messages.rs`)

Each write handler takes an interference function `mid : DB → DB`
modelling whatever concurrent writers do in the window between the
acknowledged persistence write and the later reads/broadcast of the same
request (the spec's "concurrent writes between the persist and the
broadcast").  A purely sequential run is `mid = id`.  The handler result
is the `Result` value, the storage state at the end of the request, and
the trace of persistence/broadcast events in program order. -/

/-- `CreateMessageBody`. -/
structure CreateMessageBody where
  message : Option String
  message_type : String
  client_generated_id : String
  reply_to_id : Option Int
  reply_root_id : Option Int
deriving Repr, DecidableEq

/-- `POST /chats/:chat_id/messages` (`post_message`): membership check,
id generation (the fresh id is the `newId` parameter), insert with
`created_at = now`, `updated_at/deleted_at = None`,
`has_attachments = false`; then the reply-preview read, the response
built from the `new_msg` fields, the member read, and the broadcast. -/
def post_message (db : DB) (uid chat_id : Int) (body : CreateMessageBody)
    (newId : Int) (now : Int) (mid : DB → DB) :
    Except HandlerError MessageResponse × DB × List TraceEvent :=
  match check_membership db chat_id uid with
  | .error e => (.error e, db, [])
  | .ok _ =>
    let new_msg : Message :=
      { id := newId
        message := body.message
        message_type := body.message_type
        reply_to_id := body.reply_to_id
        reply_root_id := body.reply_root_id
        client_generated_id := body.client_generated_id
        sender_uid := uid
        chat_id := chat_id
        created_at := now
        updated_at := none
        deleted_at := none
        has_attachments := false }
    let db1 : DB := { db with messages := db.messages ++ [new_msg] }
    let db2 := mid db1
    let reply_to_message := new_msg.reply_to_id.bind (fun rid =>
      (db2.messages.find? (fun m => m.id == rid)).map (fun r =>
        ReplyToMessage.mk r.id r.message r.sender_uid r.deleted_at))
    let response : MessageResponse :=
      { id := new_msg.id
        message := new_msg.message
        message_type := new_msg.message_type
        reply_to_id := new_msg.reply_to_id
        reply_root_id := new_msg.reply_root_id
        client_generated_id := new_msg.client_generated_id
        sender_uid := new_msg.sender_uid
        chat_id := new_msg.chat_id
        created_at := new_msg.created_at
        updated_at := new_msg.updated_at
        deleted_at := new_msg.deleted_at
        has_attachments := new_msg.has_attachments
        reply_to_message := reply_to_message }
    let member_uids := memberUids db2 chat_id
    (.ok response, db2, [.persist, .broadcastEv "message" response member_uids])

/-- `PATCH /chats/:chat_id/messages/:message_id` (`patch_message`):
membership check; lookup by `(id, chat_id)` (404); sender check (403);
deleted check (400 "Cannot edit deleted message"); trimmed-empty check
(400 "Message cannot be empty"); update of `message`/`updated_at`
filtered by `id` alone; re-read by `id`; member read; broadcast of the
re-read row. -/
def patch_message (db : DB) (uid chat_id message_id : Int)
    (newBody : String) (now : Int) (mid : DB → DB) :
    Except HandlerError MessageResponse × DB × List TraceEvent :=
  match check_membership db chat_id uid with
  | .error e => (.error e, db, [])
  | .ok _ =>
    match db.messages.find? (fun m => m.id == message_id && m.chat_id == chat_id) with
    | none => (.error (.notFound, "Message not found"), db, [])
    | some message =>
      if message.sender_uid ≠ uid then
        (.error (.forbidden, "You can only edit your own messages"), db, [])
      else if message.deleted_at.isSome then
        (.error (.badRequest, "Cannot edit deleted message"), db, [])
      else if (rustTrim newBody).data.isEmpty then
        (.error (.badRequest, "Message cannot be empty"), db, [])
      else
        let db1 : DB := { db with messages := db.messages.map (fun m =>
          if m.id == message_id then
            { m with message := some newBody, updated_at := some now }
          else m) }
        let db2 := mid db1
        match db2.messages.find? (fun m => m.id == message_id) with
        | none =>
          (.error (.internalServerError, "Failed to fetch updated message"), db2,
            [.persist])
        | some updated_message =>
          let response := MessageResponse.fromMessage updated_message
          let member_uids := memberUids db2 chat_id
          (.ok response, db2,
            [.persist, .broadcastEv "message_updated" response member_uids])

/-- `DELETE /chats/:chat_id/messages/:message_id` (`delete_message`):
membership check; lookup by `(id, chat_id)` (404); sender check (403);
already-deleted check (410 "Message already deleted"); soft delete
setting `deleted_at` filtered by `id` alone; re-read by `id`; member
read; broadcast of the re-read row; `204 No Content`. -/
def delete_message (db : DB) (uid chat_id message_id : Int)
    (now : Int) (mid : DB → DB) :
    Except HandlerError Status × DB × List TraceEvent :=
  match check_membership db chat_id uid with
  | .error e => (.error e, db, [])
  | .ok _ =>
    match db.messages.find? (fun m => m.id == message_id && m.chat_id == chat_id) with
    | none => (.error (.notFound, "Message not found"), db, [])
    | some message =>
      if message.sender_uid ≠ uid then
        (.error (.forbidden, "You can only delete your own messages"), db, [])
      else if message.deleted_at.isSome then
        (.error (.gone, "Message already deleted"), db, [])
      else
        let db1 : DB := { db with messages := db.messages.map (fun m =>
          if m.id == message_id then { m with deleted_at := some now } else m) }
        let db2 := mid db1
        match db2.messages.find? (fun m => m.id == message_id) with
        | none =>
          (.error (.internalServerError, "Failed to fetch deleted message"), db2,
            [.persist])
        | some deleted_message =>
          let response := MessageResponse.fromMessage deleted_message
          let member_uids := memberUids db2 chat_id
          (.ok .noContent, db2,
            [.persist, .broadcastEv "message_deleted" response member_uids])

/-! ## WebSocket handshake (`handlers/ws.rs::ws_handler`) -/

/-- Rust `<i32 as FromStr>::from_str`: an optional sign followed by one
or more ASCII digits, rejecting values outside the `i32` range. -/
def parseI32 (s : String) : Option Int :=
  let cs := s.data
  let signAndDigits : Int × List Char :=
    match cs with
    | '+' :: rest => (1, rest)
    | '-' :: rest => (-1, rest)
    | _ => (1, cs)
  let sign := signAndDigits.1
  let ds := signAndDigits.2
  if ds.isEmpty || !(ds.all Char.isDigit) then
    none
  else
    let n : Nat := ds.foldl (fun acc c => acc * 10 + (c.toNat - 48)) 0
    let v : Int := sign * (n : Int)
    if -2147483648 ≤ v ∧ v ≤ 2147483647 then some v else none

/-- `ws_handler` up to the upgrade: validate the `uid` query parameter
(401 when absent, 401 when the trimmed value does not parse as an `i32`)
and only then register a connection in the registry.  Returns the 401
payload or the registered connection id, together with the registry
state after the handler ran. -/
def ws_handler (reg : ConnectionRegistry) (now : Nat)
    (uidParam : Option String) :
    Except HandlerError Nat × ConnectionRegistry :=
  match uidParam with
  | none => (.error (.unauthorized, "Missing uid query param"), reg)
  | some s =>
    match parseI32 (rustTrim s) with
    | none => (.error (.unauthorized, "uid must be a valid i32"), reg)
    | some n =>
      let rc := register reg n now
      (.ok rc.2, rc.1)

/-! ## Registry lemmas -/

/-- `find?` on a per-key map: pairs with other keys are untouched, the
first pair with the key is transformed. -/
theorem findUid_mapAtKey (inner : List (Int × List ConnectionEntry))
    (uid u : Int) (f : List ConnectionEntry → List ConnectionEntry) :
    ((inner.map (fun p => if p.1 == uid then (p.1, f p.2) else p)).find?
        (fun p => p.1 == u)) =
      if u = uid then
        (inner.find? (fun p => p.1 == u)).map (fun p => (p.1, f p.2))
      else
        inner.find? (fun p => p.1 == u) := by
  have hcomp : ((fun p : Int × List ConnectionEntry => p.1 == u) ∘
      (fun p => if p.1 == uid then (p.1, f p.2) else p)) =
      (fun p : Int × List ConnectionEntry => p.1 == u) := by
    funext x
    by_cases hx : x.1 = uid <;> simp [hx]
  rw [List.find?_map, hcomp]
  cases hfind : inner.find? (fun p => p.1 == u) with
  | none => simp
  | some q =>
    have hq : q.1 = u := by
      have := List.find?_some hfind
      simpa using this
    by_cases huu : u = uid
    · simp [huu, hq, Option.map]
    · have : ¬ (q.1 = uid) := by
        rw [hq]
        exact huu
      simp [huu, this, Option.map]

/-- `broadcastOne` characterised through `find?`. -/
theorem findUid_broadcastOne (inner : List (Int × List ConnectionEntry))
    (uid u : Int) (msg : String) :
    ((broadcastOne inner uid msg).find? (fun p => p.1 == u)) =
      if u = uid then
        (inner.find? (fun p => p.1 == u)).map
          (fun p => (p.1, p.2.map (fun e => trySend e msg)))
      else
        inner.find? (fun p => p.1 == u) := by
  unfold broadcastOne
  exact findUid_mapAtKey inner uid u (fun v => v.map (fun e => trySend e msg))

/-- Folding `broadcastOne` over uids not containing `u` leaves `u`'s
entry untouched. -/
theorem findUid_broadcast_foldl_not_mem (uids : List Int)
    (inner : List (Int × List ConnectionEntry)) (u : Int) (msg : String)
    (h : u ∉ uids) :
    ((uids.foldl (fun acc uid => broadcastOne acc uid msg) inner).find?
        (fun p => p.1 == u)) = inner.find? (fun p => p.1 == u) := by
  induction uids generalizing inner with
  | nil => rfl
  | cons v rest ih =>
    have hvu : u ≠ v := fun he => h (he ▸ List.mem_cons_self v rest)
    have hrest : u ∉ rest := fun hm => h (List.mem_cons_of_mem v hm)
    simp only [List.foldl_cons]
    rw [ih (broadcastOne inner v msg) hrest, findUid_broadcastOne, if_neg hvu]

/-- Folding `broadcastOne` over a duplicate-free uid list: `u`'s entry is
try-sent to exactly when `u` is listed. -/
theorem findUid_broadcast_foldl (uids : List Int)
    (inner : List (Int × List ConnectionEntry)) (u : Int) (msg : String)
    (hnd : uids.Nodup) :
    ((uids.foldl (fun acc uid => broadcastOne acc uid msg) inner).find?
        (fun p => p.1 == u)) =
      if u ∈ uids then
        (inner.find? (fun p => p.1 == u)).map
          (fun p => (p.1, p.2.map (fun e => trySend e msg)))
      else
        inner.find? (fun p => p.1 == u) := by
  induction uids generalizing inner with
  | nil => simp
  | cons v rest ih =>
    have hvrest : v ∉ rest := (List.nodup_cons.mp hnd).1
    have hndrest : rest.Nodup := (List.nodup_cons.mp hnd).2
    simp only [List.foldl_cons]
    by_cases huv : u = v
    · subst huv
      rw [findUid_broadcast_foldl_not_mem rest _ u msg hvrest,
        findUid_broadcastOne, if_pos rfl, if_pos (List.mem_cons_self u rest)]
    · rw [ih (broadcastOne inner v msg) hndrest, findUid_broadcastOne, if_neg huv]
      by_cases hur : u ∈ rest
      · simp [hur, huv]
      · simp [hur, huv]

/-- `find?` commutes with pointwise equal predicates. -/
theorem find?_ext (l : List α) (p q : α → Bool) (h : ∀ a, p a = q a) :
    l.find? p = l.find? q := by
  induction l with
  | nil => rfl
  | cons a tail ih =>
    by_cases hp : p a
    · rw [List.find?_cons_of_pos _ hp, List.find?_cons_of_pos _ ((h a) ▸ hp)]
    · rw [List.find?_cons_of_neg _ hp,
        List.find?_cons_of_neg _ (by rw [← h a]; exact hp), ih]

/-- `find?` over a list filtered-and-mapped by a key-preserving partial
step: with duplicate-free keys, find the pair first, then apply the
step. -/
theorem find?_filterMap_key {β : Type} (l : List (Int × β))
    (step : Int × β → Option (Int × β))
    (hstep : ∀ p q, step p = some q → q.1 = p.1) (u : Int)
    (hkeys : (l.map (·.1)).Nodup) :
    (l.filterMap step).find? (fun p => p.1 == u) =
      (l.find? (fun p => p.1 == u)).bind step := by
  induction l with
  | nil => rfl
  | cons p rest ih =>
    have hkrest : (rest.map (·.1)).Nodup := (List.nodup_cons.mp hkeys).2
    have hpabs : p.1 ∉ rest.map (·.1) := (List.nodup_cons.mp hkeys).1
    by_cases hpu : p.1 = u
    · cases hsp : step p with
      | some q =>
        have hq : q.1 = p.1 := hstep p q hsp
        rw [List.filterMap_cons_some hsp]
        rw [List.find?_cons_of_pos _ (by simp [hq, hpu]),
          List.find?_cons_of_pos _ (by simp [hpu])]
        simp [hsp]
      | none =>
        rw [List.filterMap_cons_none hsp,
          List.find?_cons_of_pos _ (by simp [hpu])]
        have : (rest.filterMap step).find? (fun p => p.1 == u) = none := by
          rw [List.find?_eq_none]
          intro q hqmem
          obtain ⟨p0, hp0mem, hp0step⟩ := List.mem_filterMap.mp hqmem
          have : q.1 = p0.1 := hstep p0 q hp0step
          simp only [beq_iff_eq]
          intro hqu
          exact hpabs (by
            rw [hpu, ← hqu, this]
            exact List.mem_map_of_mem (·.1) hp0mem)
        rw [this]
        simp [hsp]
    · have hfind : (p :: rest).find? (fun p => p.1 == u) =
          rest.find? (fun p => p.1 == u) :=
        List.find?_cons_of_neg _ (by simp [hpu])
      cases hsp : step p with
      | some q =>
        have hq : q.1 = p.1 := hstep p q hsp
        rw [List.filterMap_cons_some hsp,
          List.find?_cons_of_neg _ (by simp [hq, hpu]), hfind, ih hkrest]
      | none =>
        rw [List.filterMap_cons_none hsp, hfind, ih hkrest]

/-- `filter` after `map` as a `filterMap`. -/
theorem map_filter_eq_filterMap (f : α → β) (q : β → Bool) (l : List α) :
    (l.map f).filter q =
      l.filterMap (fun a => if q (f a) then some (f a) else none) := by
  induction l with
  | nil => rfl
  | cons a tail ih =>
    by_cases hq : q (f a) <;> simp [hq, ih]

/-- With duplicate-free connection ids, retaining the entries whose id is
not in the stale set is the same as retaining the fresh entries. -/
theorem filter_not_stale_eq (v : List ConnectionEntry) (now maxAge : Nat)
    (hids : (v.map (·.conn_id)).Nodup) :
    v.filter (fun e => !(staleIds v now maxAge).contains e.conn_id) =
      v.filter (fun e => now - e.last_ping_at ≤ maxAge) := by
  apply List.filter_congr
  intro e he
  by_cases hst : now - e.last_ping_at > maxAge
  · have hfe : e ∈ v.filter (fun e => now - e.last_ping_at > maxAge) :=
      List.mem_filter.mpr ⟨he, by simpa using hst⟩
    have hmem : e.conn_id ∈ staleIds v now maxAge := by
      unfold staleIds
      exact List.mem_map_of_mem (·.conn_id) hfe
    have h1 : (staleIds v now maxAge).contains e.conn_id = true := by
      simpa using hmem
    rw [h1]
    simp [Nat.not_le.mpr hst]
  · have hnmem : e.conn_id ∉ staleIds v now maxAge := by
      unfold staleIds
      intro hmem
      obtain ⟨e2, he2mem, he2id⟩ := List.mem_map.mp hmem
      have he2v : e2 ∈ v := (List.mem_filter.mp he2mem).1
      have he2st : now - e2.last_ping_at > maxAge := by
        have := (List.mem_filter.mp he2mem).2
        simpa using this
      have : e2 = e := List.inj_on_of_nodup_map hids he2v he (by simpa using he2id)
      exact hst (this ▸ he2st)
    have h1 : (staleIds v now maxAge).contains e.conn_id = false := by
      simpa using hnmem
    rw [h1]
    simp [Nat.not_lt.mp hst]

/-- If no entry of `v` is stale, every entry of `v` is fresh. -/
theorem filter_fresh_of_stale_empty (v : List ConnectionEntry)
    (now maxAge : Nat) (h : staleIds v now maxAge = []) :
    v.filter (fun e => now - e.last_ping_at ≤ maxAge) = v := by
  apply List.filter_eq_self.mpr
  intro e he
  unfold staleIds at h
  have hf : v.filter (fun e => now - e.last_ping_at > maxAge) = [] :=
    List.map_eq_nil_iff.mp h
  by_contra hc
  have : e ∈ v.filter (fun e => now - e.last_ping_at > maxAge) :=
    List.mem_filter.mpr ⟨he, by simpa using Nat.not_le.mp (by simpa using hc)⟩
  rw [hf] at this
  exact List.not_mem_nil e this

/-- `pruneStep` with its lets expanded. -/
theorem pruneStep_unfold (maxAge now : Nat) (p : Int × List ConnectionEntry) :
    pruneStep maxAge now p =
      (if (staleIds p.2 now maxAge).isEmpty then some p
       else if (p.2.filter
           (fun e => !(staleIds p.2 now maxAge).contains e.conn_id)).isEmpty then
         none
       else
         some (p.1, p.2.filter
           (fun e => !(staleIds p.2 now maxAge).contains e.conn_id))) := rfl

/-- `pruneStep` preserves the uid key. -/
theorem pruneStep_key (maxAge now : Nat) (p q : Int × List ConnectionEntry)
    (h : pruneStep maxAge now p = some q) : q.1 = p.1 := by
  rw [pruneStep_unfold] at h
  split at h
  · injection h with h2
    rw [← h2]
  · split at h
    · exact absurd h (by simp)
    · injection h with h2
      rw [← h2]

/-- `pruneStep` on a non-empty vector with duplicate-free connection
ids: keep the fresh entries, drop the uid when none is fresh. -/
theorem pruneStep_eq (maxAge now : Nat) (p : Int × List ConnectionEntry)
    (hids : (p.2.map (·.conn_id)).Nodup) (hne : p.2 ≠ []) :
    pruneStep maxAge now p =
      (if (p.2.filter (fun e => now - e.last_ping_at ≤ maxAge)).isEmpty then none
       else some (p.1, p.2.filter (fun e => now - e.last_ping_at ≤ maxAge))) := by
  rw [pruneStep_unfold]
  by_cases hst : (staleIds p.2 now maxAge).isEmpty
  · have hkeq : p.2.filter (fun e => now - e.last_ping_at ≤ maxAge) = p.2 :=
      filter_fresh_of_stale_empty p.2 now maxAge (List.isEmpty_iff.mp hst)
    have hkne : ¬ (p.2.filter (fun e => now - e.last_ping_at ≤ maxAge)).isEmpty := by
      rw [hkeq]
      exact fun hc => hne (List.isEmpty_iff.mp hc)
    rw [if_pos hst, if_neg hkne, hkeq]
  · rw [if_neg hst, filter_not_stale_eq p.2 now maxAge hids]

/-- Lookup after a `prune_stale` sweep, fully characterised. -/
theorem lookupUid_prune_stale (r : ConnectionRegistry) (maxAge now : Nat)
    (hkeys : (r.inner.map (·.1)).Nodup)
    (hids : ∀ p ∈ r.inner, (p.2.map (·.conn_id)).Nodup)
    (hne : allNonEmpty r) (u : Int) :
    lookupUid (prune_stale r maxAge now) u =
      (lookupUid r u).bind (fun v =>
        if (v.filter (fun e => now - e.last_ping_at ≤ maxAge)).isEmpty then none
        else some (v.filter (fun e => now - e.last_ping_at ≤ maxAge))) := by
  unfold lookupUid prune_stale
  rw [find?_filterMap_key r.inner (pruneStep maxAge now)
    (pruneStep_key maxAge now) u hkeys]
  cases hfind : r.inner.find? (fun p => p.1 == u) with
  | none => simp
  | some p =>
    have hpmem : p ∈ r.inner := List.mem_of_find?_eq_some hfind
    simp only [Option.map_some', Option.some_bind]
    rw [pruneStep_eq maxAge now p (hids p hpmem) (hne p hpmem)]
    by_cases hk : (p.2.filter (fun e => now - e.last_ping_at ≤ maxAge)).isEmpty
    · rw [if_pos hk, if_pos hk, Option.map_none']
    · rw [if_neg hk, if_neg hk, Option.map_some']

/-! ## Claim theorems: connection registry -/

/-- Claim C6: a single `prune_stale` sweep removes exactly the
connections whose age `now - lastPingAt` strictly exceeds `maxAge`,
across all uids, and removes every uid whose connection set becomes
empty as a result; with the fixed 300-second timeout
(`registry.prune_stale(300)` in `main.rs`), a connection whose last ping
was at most 300 seconds ago (e.g. 299) survives the sweep while one not
pinged for more than 300 seconds is absent afterwards.  The hypotheses
are the dashmap/connection-counter invariants: distinct uid keys,
globally distinct connection ids, and no empty per-uid vectors. -/
theorem prune_stale_removes_exactly_stale (r : ConnectionRegistry)
    (maxAge now : Nat) (hkeys : (r.inner.map (·.1)).Nodup)
    (hids : ∀ p ∈ r.inner, (p.2.map (·.conn_id)).Nodup)
    (hne : allNonEmpty r) :
    (∀ u, lookupUid (prune_stale r maxAge now) u =
      (lookupUid r u).bind (fun v =>
        if (v.filter (fun e => now - e.last_ping_at ≤ maxAge)).isEmpty then none
        else some (v.filter (fun e => now - e.last_ping_at ≤ maxAge)))) ∧
    (∀ u e, (∃ v2, lookupUid (prune_stale r maxAge now) u = some v2 ∧ e ∈ v2) ↔
      ((∃ v, lookupUid r u = some v ∧ e ∈ v) ∧ now - e.last_ping_at ≤ maxAge)) ∧
    (∀ u e v, lookupUid r u = some v → e ∈ v → now - e.last_ping_at ≤ 300 →
      ∃ v2, lookupUid (prune_stale r 300 now) u = some v2 ∧ e ∈ v2) ∧
    (∀ u e v2, lookupUid (prune_stale r 300 now) u = some v2 → e ∈ v2 →
      ¬ (now - e.last_ping_at > 300)) := by
  have hchar := lookupUid_prune_stale r maxAge now hkeys hids hne
  have hchar300 := lookupUid_prune_stale r 300 now hkeys hids hne
  refine ⟨hchar, ?_, ?_, ?_⟩
  · intro u e
    rw [hchar u]
    cases hl : lookupUid r u with
    | none => simp
    | some v =>
      simp only [Option.some_bind]
      by_cases hk : (v.filter (fun e => now - e.last_ping_at ≤ maxAge)).isEmpty
      · rw [if_pos hk]
        constructor
        · rintro ⟨v2, hv2, _⟩
          exact absurd hv2 (by simp)
        · rintro ⟨⟨v1, hv1, hev⟩, hle⟩
          injection hv1 with hv1e
          subst hv1e
          have hmem : e ∈ v.filter (fun e => now - e.last_ping_at ≤ maxAge) :=
            List.mem_filter.mpr ⟨hev, by simpa using hle⟩
          rw [List.isEmpty_iff.mp hk] at hmem
          exact absurd hmem (List.not_mem_nil e)
      · rw [if_neg hk]
        constructor
        · rintro ⟨v2, hv2, hev2⟩
          injection hv2 with hv2e
          subst hv2e
          have := List.mem_filter.mp hev2
          exact ⟨⟨v, rfl, this.1⟩, by simpa using this.2⟩
        · rintro ⟨⟨v1, hv1, hev⟩, hle⟩
          injection hv1 with hv1e
          subst hv1e
          exact ⟨_, rfl, List.mem_filter.mpr ⟨hev, by simpa using hle⟩⟩
  · intro u e v hl hev hle
    rw [hchar300 u, hl]
    simp only [Option.some_bind]
    have hmem : e ∈ v.filter (fun e => now - e.last_ping_at ≤ 300) :=
      List.mem_filter.mpr ⟨hev, by simpa using hle⟩
    have hkne : ¬ (v.filter (fun e => now - e.last_ping_at ≤ 300)).isEmpty := by
      intro hc
      rw [List.isEmpty_iff.mp hc] at hmem
      exact absurd hmem (List.not_mem_nil e)
    rw [if_neg hkne]
    exact ⟨_, rfl, hmem⟩
  · intro u e v2 hl2 hev2
    rw [hchar300 u] at hl2
    cases hl : lookupUid r u with
    | none =>
      rw [hl] at hl2
      exact absurd hl2 (by simp)
    | some v =>
      rw [hl] at hl2
      simp only [Option.some_bind] at hl2
      by_cases hk : (v.filter (fun e => now - e.last_ping_at ≤ 300)).isEmpty
      · rw [if_pos hk] at hl2
        exact absurd hl2 (by simp)
      · rw [if_neg hk] at hl2
        injection hl2 with hl2e
        subst hl2e
        have := (List.mem_filter.mp hev2).2
        simpa using this

/-- Concrete sweep with the production timeout: `now = 1000`, one uid
with pings 299 and 301 seconds old; the 299-second connection survives,
the 301-second one is gone. -/
def pruneExampleRegistry : ConnectionRegistry :=
  ⟨2, [(5, [⟨0, [], 701⟩, ⟨1, [], 699⟩])]⟩

/-- Witness for C6 at a concrete registry. -/
theorem prune_stale_removes_exactly_stale_witness :
    lookupUid (prune_stale pruneExampleRegistry 300 1000) 5 =
      some [⟨0, [], 701⟩] := by
  have h := prune_stale_removes_exactly_stale pruneExampleRegistry 300 1000
    (by decide) (by decide) (by decide)
  rw [h.1 5]
  decide

/-- Claim C7: `broadcast_to_uids` over a set of uids attempts a
non-blocking `try_send` to every live connection of every listed uid; a
full channel leaves only that connection's queue unchanged (the send is
dropped) and never removes the connection, every connection below
capacity receives the payload, connections of unlisted uids are
untouched, and uids with no live connections are skipped (their lookup
stays `none`).  The operation is a total function into a new registry
state: it cannot return an error to the caller. -/
theorem broadcast_to_uids_isolated_failure (r : ConnectionRegistry)
    (uids : List Int) (msg : String) (hnd : uids.Nodup) :
    (∀ u ∈ uids, lookupUid (broadcast_to_uids r uids msg) u =
      (lookupUid r u).map (List.map (fun e => trySend e msg))) ∧
    (∀ u, u ∉ uids → lookupUid (broadcast_to_uids r uids msg) u = lookupUid r u) ∧
    (∀ u ∈ uids, lookupUid r u = none →
      lookupUid (broadcast_to_uids r uids msg) u = none) ∧
    (∀ e : ConnectionEntry,
      (trySend e msg).conn_id = e.conn_id ∧
      (trySend e msg).last_ping_at = e.last_ping_at ∧
      (e.queue.length < channelCapacity →
        (trySend e msg).queue = e.queue ++ [msg]) ∧
      (¬ e.queue.length < channelCapacity →
        (trySend e msg).queue = e.queue)) := by
  have hmain : ∀ u ∈ uids, lookupUid (broadcast_to_uids r uids msg) u =
      (lookupUid r u).map (List.map (fun e => trySend e msg)) := by
    intro u hu
    unfold lookupUid broadcast_to_uids
    simp only []
    rw [findUid_broadcast_foldl uids r.inner u msg hnd, if_pos hu]
    cases r.inner.find? (fun p => p.1 == u) <;> simp
  refine ⟨hmain, ?_, ?_, ?_⟩
  · intro u hu
    unfold lookupUid broadcast_to_uids
    simp only []
    rw [findUid_broadcast_foldl uids r.inner u msg hnd, if_neg hu]
  · intro u hu hnone
    rw [hmain u hu, hnone]
    rfl
  · intro e
    unfold trySend
    by_cases hq : e.queue.length < channelCapacity
    · simp [hq]
    · simp [hq]

/-- Concrete broadcast target: uid 1 with an open connection and one
whose channel holds `channelCapacity` pending messages, uid 2 with one
open connection. -/
def broadcastExampleFullQueue : List String := List.replicate 64 "x"

/-- Concrete registry for the C7 witness. -/
def broadcastExampleRegistry : ConnectionRegistry :=
  ⟨3, [(1, [⟨0, [], 10⟩, ⟨1, broadcastExampleFullQueue, 10⟩]), (2, [⟨2, [], 10⟩])]⟩

/-- Witness for C7: the full channel drops its send while every other
connection of every listed uid receives the payload. -/
theorem broadcast_to_uids_isolated_failure_witness :
    lookupUid (broadcast_to_uids broadcastExampleRegistry [1, 2, 9] "m") 1 =
      some [⟨0, ["m"], 10⟩, ⟨1, broadcastExampleFullQueue, 10⟩] ∧
    lookupUid (broadcast_to_uids broadcastExampleRegistry [1, 2, 9] "m") 2 =
      some [⟨2, ["m"], 10⟩] := by
  have h := broadcast_to_uids_isolated_failure broadcastExampleRegistry
    [1, 2, 9] "m" (by decide)
  constructor
  · rw [h.1 1 (by decide)]
    decide
  · rw [h.1 2 (by decide)]
    decide

/-- The per-pair effect of `remove_connection`: retain the other
connection ids, then drop the pair when it is the uid's and became
empty. -/
def remStep (uid : Int) (cid : Nat) (p : Int × List ConnectionEntry) :
    Option (Int × List ConnectionEntry) :=
  let q := if p.1 == uid then (p.1, p.2.filter (fun e => e.conn_id != cid)) else p
  if !(q.1 == uid && q.2.isEmpty) then some q else none

/-- `remove_connection` with its lets expanded. -/
theorem remove_connection_def (r : ConnectionRegistry) (uid : Int) (cid : Nat) :
    remove_connection r uid cid =
      ⟨r.next_conn_id,
        (r.inner.map (fun p =>
          if p.1 == uid then (p.1, p.2.filter (fun e => e.conn_id != cid))
          else p)).filter (fun p => !(p.1 == uid && p.2.isEmpty))⟩ := rfl

/-- `remove_connection` as a `filterMap` of `remStep`. -/
theorem remove_connection_eq_filterMap (r : ConnectionRegistry) (uid : Int)
    (cid : Nat) :
    remove_connection r uid cid =
      ⟨r.next_conn_id, r.inner.filterMap (remStep uid cid)⟩ := by
  rw [remove_connection_def]
  congr 1
  rw [map_filter_eq_filterMap]
  apply List.filterMap_congr
  intro p _
  simp only [remStep]

/-- `remStep` preserves the uid key. -/
theorem remStep_key (uid : Int) (cid : Nat) (p q : Int × List ConnectionEntry)
    (h : remStep uid cid p = some q) : q.1 = p.1 := by
  unfold remStep at h
  by_cases hk : p.1 == uid
  · simp only [hk, if_true] at h
    split at h
    · injection h with h2
      rw [← h2]
    · exact absurd h (by simp)
  · simp only [hk, Bool.false_eq_true, if_false] at h
    split at h
    · injection h with h2
      rw [← h2]
    · exact absurd h (by simp)

/-- `remStep` on the uid's own pair. -/
theorem remStep_eq_of_key (uid : Int) (cid : Nat)
    (p : Int × List ConnectionEntry) (hp : p.1 = uid) :
    remStep uid cid p =
      (if (p.2.filter (fun e => e.conn_id != cid)).isEmpty then none
       else some (p.1, p.2.filter (fun e => e.conn_id != cid))) := by
  unfold remStep
  simp only [hp, beq_self_eq_true, if_true]
  by_cases hk : (p.2.filter (fun e => e.conn_id != cid)).isEmpty <;> simp [hk]

/-- `remStep` on any other pair. -/
theorem remStep_eq_of_ne (uid : Int) (cid : Nat)
    (p : Int × List ConnectionEntry) (hp : p.1 ≠ uid) :
    remStep uid cid p = some p := by
  unfold remStep
  have hk : (p.1 == uid) = false := beq_eq_false_iff_ne.mpr hp
  simp [hk]

/-- Lookup after `remove_connection`, fully characterised. -/
theorem lookupUid_remove_connection (r : ConnectionRegistry) (uid : Int)
    (cid : Nat) (u : Int) (hkeys : (r.inner.map (·.1)).Nodup) :
    lookupUid (remove_connection r uid cid) u =
      if u = uid then
        (lookupUid r uid).bind (fun v =>
          if (v.filter (fun e => e.conn_id != cid)).isEmpty then none
          else some (v.filter (fun e => e.conn_id != cid)))
      else lookupUid r u := by
  rw [remove_connection_eq_filterMap]
  unfold lookupUid
  simp only []
  rw [find?_filterMap_key r.inner (remStep uid cid) (remStep_key uid cid) u hkeys]
  by_cases huu : u = uid
  · subst huu
    rw [if_pos rfl]
    cases hfind : r.inner.find? (fun p => p.1 == u) with
    | none => simp
    | some p =>
      have hp : p.1 = u := by simpa using List.find?_some hfind
      simp only [Option.map_some', Option.some_bind]
      rw [remStep_eq_of_key u cid p hp]
      by_cases hk : (p.2.filter (fun e => e.conn_id != cid)).isEmpty
      · rw [if_pos hk, if_pos hk, Option.map_none']
      · rw [if_neg hk, if_neg hk, Option.map_some']
  · rw [if_neg huu]
    cases hfind : r.inner.find? (fun p => p.1 == u) with
    | none => simp
    | some p =>
      have hp : p.1 = u := by simpa using List.find?_some hfind
      simp only [Option.map_some', Option.some_bind]
      rw [remStep_eq_of_ne uid cid p (by rw [hp]; exact huu), Option.map_some']

/-- Removing a connection id that is not present anywhere in the uid's
vectors leaves the registry unchanged. -/
theorem remove_connection_no_op (r : ConnectionRegistry) (uid : Int)
    (cid : Nat) (hne : allNonEmpty r)
    (habs : ∀ p ∈ r.inner, p.1 = uid → ∀ e ∈ p.2, e.conn_id ≠ cid) :
    remove_connection r uid cid = r := by
  have hmap : r.inner.map (fun p =>
      if p.1 == uid then (p.1, p.2.filter (fun e => e.conn_id != cid)) else p) =
      r.inner := by
    conv_rhs => rw [show r.inner = r.inner.map id from (List.map_id r.inner).symm]
    apply List.map_congr_left
    intro p hp
    obtain ⟨p1, p2⟩ := p
    by_cases hk : p1 = uid
    · have hfe : p2.filter (fun e => e.conn_id != cid) = p2 := by
        apply List.filter_eq_self.mpr
        intro e he
        simpa using habs (p1, p2) hp hk e he
      simp [hk, hfe]
    · simp [hk]
  have hfil : r.inner.filter (fun p => !(p.1 == uid && p.2.isEmpty)) = r.inner := by
    apply List.filter_eq_self.mpr
    intro p hp
    have : ¬ p.2.isEmpty := fun hc => hne p hp (List.isEmpty_iff.mp hc)
    simp [this]
  rw [remove_connection_def, hmap, hfil]

/-- `register` keeps every per-uid vector non-empty. -/
theorem register_preserves_nonEmpty (r : ConnectionRegistry) (uid : Int)
    (now : Nat) (h : allNonEmpty r) : allNonEmpty (register r uid now).1 := by
  intro p hp
  have hinner : (register r uid now).1.inner =
      (if r.inner.any (fun p => p.1 == uid) then
        r.inner.map (fun p =>
          if p.1 == uid then (p.1, p.2 ++ [⟨r.next_conn_id, [], now⟩]) else p)
      else r.inner ++ [(uid, [⟨r.next_conn_id, [], now⟩])]) := rfl
  rw [hinner] at hp
  by_cases hany : r.inner.any (fun p => p.1 == uid)
  · rw [if_pos hany] at hp
    obtain ⟨p0, hp0, hpe⟩ := List.mem_map.mp hp
    by_cases hk : p0.1 == uid
    · rw [if_pos hk] at hpe
      rw [← hpe]
      simp
    · rw [if_neg (by simp_all)] at hpe
      rw [← hpe]
      exact h p0 hp0
  · rw [if_neg hany] at hp
    rcases List.mem_append.mp hp with h1 | h2
    · exact h p h1
    · have : p = (uid, [⟨r.next_conn_id, [], now⟩]) := by simpa using h2
      rw [this]
      simp

/-- `remove_connection` keeps every per-uid vector non-empty. -/
theorem remove_preserves_nonEmpty (r : ConnectionRegistry) (uid : Int)
    (cid : Nat) (h : allNonEmpty r) :
    allNonEmpty (remove_connection r uid cid) := by
  intro p hp
  have hp2 := hp
  unfold remove_connection at hp2
  have hkeep := (List.mem_filter.mp hp2).2
  have hmem := (List.mem_filter.mp hp2).1
  by_cases hk : p.1 == uid
  · intro hc
    rw [hk] at hkeep
    simp [hc] at hkeep
  · obtain ⟨p0, hp0, hpe⟩ := List.mem_map.mp hmem
    by_cases hk0 : p0.1 == uid
    · rw [if_pos hk0] at hpe
      rw [← hpe] at hk
      simp_all
    · rw [if_neg (by simp_all)] at hpe
      rw [← hpe]
      exact h p0 hp0

/-- `prune_stale` keeps every per-uid vector non-empty. -/
theorem prune_preserves_nonEmpty (r : ConnectionRegistry) (maxAge now : Nat)
    (h : allNonEmpty r) : allNonEmpty (prune_stale r maxAge now) := by
  intro p hp
  unfold prune_stale at hp
  obtain ⟨p0, hp0, hstep⟩ := List.mem_filterMap.mp hp
  rw [pruneStep_unfold] at hstep
  split at hstep
  · injection hstep with h2
    rw [← h2]
    exact h p0 hp0
  · split at hstep
    · exact absurd hstep (by simp)
    · rename_i hkept
      injection hstep with h2
      rw [← h2]
      simpa [List.isEmpty_iff] using hkept

/-- Every single operation preserves the non-empty-vector invariant. -/
theorem applyOp_preserves_nonEmpty (r : ConnectionRegistry) (op : RegOp)
    (h : allNonEmpty r) : allNonEmpty (applyOp r op) := by
  cases op with
  | doRegister uid now => exact register_preserves_nonEmpty r uid now h
  | doRemove uid cid => exact remove_preserves_nonEmpty r uid cid h
  | doPrune maxAge now => exact prune_preserves_nonEmpty r maxAge now h

/-- Claim C9: `remove_connection` removes exactly the connection with
the given id from the given uid's set (dropping the uid when the set
becomes empty) and is idempotent — removing an absent connection id
leaves the registry unchanged; and after every sequence of `register`,
`remove_connection`, `prune_stale` operations from the empty registry,
every uid present maps to a non-empty connection set. -/
theorem remove_connection_spec :
    (∀ (r : ConnectionRegistry) (uid : Int) (cid : Nat) (u : Int),
      (r.inner.map (·.1)).Nodup →
      lookupUid (remove_connection r uid cid) u =
        if u = uid then
          (lookupUid r uid).bind (fun v =>
            if (v.filter (fun e => e.conn_id != cid)).isEmpty then none
            else some (v.filter (fun e => e.conn_id != cid)))
        else lookupUid r u) ∧
    (∀ (r : ConnectionRegistry) (uid : Int) (cid : Nat), allNonEmpty r →
      (∀ p ∈ r.inner, p.1 = uid → ∀ e ∈ p.2, e.conn_id ≠ cid) →
      remove_connection r uid cid = r) ∧
    (∀ ops : List RegOp, allNonEmpty (applyOps emptyRegistry ops)) := by
  refine ⟨fun r uid cid u hkeys => lookupUid_remove_connection r uid cid u hkeys,
    fun r uid cid hne habs => remove_connection_no_op r uid cid hne habs, ?_⟩
  intro ops
  have hgen : ∀ r, allNonEmpty r → allNonEmpty (applyOps r ops) := by
    induction ops with
    | nil => exact fun r h => h
    | cons op rest ih =>
      intro r h
      exact ih (applyOp r op) (applyOp_preserves_nonEmpty r op h)
  exact hgen emptyRegistry (fun p hp => absurd hp (List.not_mem_nil p))

/-- Concrete registry for the C9 witness: uid 4 with connections 0, 1. -/
def removeExampleRegistry : ConnectionRegistry :=
  ⟨2, [(4, [⟨0, [], 50⟩, ⟨1, [], 60⟩])]⟩

/-- Witness for C9: removing connection 0 keeps connection 1; removing
an absent id 9 is a no-op; a concrete operation sequence keeps all
vectors non-empty. -/
theorem remove_connection_spec_witness :
    lookupUid (remove_connection removeExampleRegistry 4 0) 4 =
      some [⟨1, [], 60⟩] ∧
    remove_connection removeExampleRegistry 4 9 = removeExampleRegistry ∧
    allNonEmpty (applyOps emptyRegistry
      [.doRegister 1 10, .doRegister 1 11, .doRemove 1 0, .doPrune 300 400]) := by
  have h := remove_connection_spec
  refine ⟨?_, ?_, h.2.2 _⟩
  · rw [h.1 removeExampleRegistry 4 0 4 (by decide)]
    decide
  · exact h.2.1 removeExampleRegistry 4 9 (by decide) (by decide)

/-! ## Claim theorems: handlers -/

/-- Claim C8: a chat-listing request carrying a cursor whose chat is not
found as a chat the requesting uid is a member of returns an empty page
with no next cursor and no error. -/
theorem get_chats_cursor_not_found_empty_page (db : DB) (uid : Int)
    (limitQ : Option Int) (after_id : Int)
    (habs : ¬ ∃ g ∈ db.groups, g.id = after_id ∧
      ∃ m ∈ db.memberships, m.chat_id = g.id ∧ m.uid = uid) :
    get_chats db uid limitQ (some after_id) = .ok ⟨[], none⟩ := by
  have hcur : cursorRow db uid after_id = none := by
    unfold cursorRow
    rw [List.find?_eq_none.mpr]
    · rfl
    · intro g hg
      simp only [Bool.and_eq_true, beq_iff_eq, List.any_eq_true, not_and]
      intro hid
      intro hmem
      obtain ⟨m, hm, hmc⟩ := hmem
      exact habs ⟨g, hg, hid, m, hm, by simpa using hmc⟩
  simp only [get_chats, hcur]

/-- Witness for C8: uid 9 is not a member of chat 1, so the cursor
lookup finds nothing and the page is empty. -/
def chatsExampleDB : DB :=
  ⟨[⟨1, some "a", 5⟩, ⟨2, none, 6⟩],
   [⟨1, 7, "admin", 5⟩, ⟨2, 7, "admin", 6⟩],
   [⟨100, some "hi", "text", none, none, "c1", 7, 1, 50, none, none, false⟩]⟩

/-- Witness theorem for C8 at a concrete store. -/
theorem get_chats_cursor_not_found_empty_page_witness :
    get_chats chatsExampleDB 9 none (some 1) = .ok ⟨[], none⟩ :=
  get_chats_cursor_not_found_empty_page chatsExampleDB 9 none 1 (by decide)

/-- Claim C10: a WebSocket connection request whose `uid` query
parameter is absent, or whose trimmed value does not parse as an `i32`,
is rejected with 401 Unauthorized before anything is registered: the
registry is returned unchanged. -/
theorem ws_handler_invalid_uid_rejected (reg : ConnectionRegistry)
    (now : Nat) (uidParam : Option String)
    (hbad : uidParam = none ∨
      ∃ s, uidParam = some s ∧ parseI32 (rustTrim s) = none) :
    (∃ msg, (ws_handler reg now uidParam).1 = .error (.unauthorized, msg)) ∧
    (ws_handler reg now uidParam).2 = reg := by
  rcases hbad with hnone | ⟨s, hsome, hparse⟩
  · subst hnone
    exact ⟨⟨"Missing uid query param", rfl⟩, rfl⟩
  · subst hsome
    simp only [ws_handler, hparse]
    exact ⟨⟨"uid must be a valid i32", rfl⟩, trivial⟩

/-- Witness for C10: the absent parameter and the non-numeric value
`" 12a "` are both rejected with the registry untouched. -/
theorem ws_handler_invalid_uid_rejected_witness :
    ((∃ msg, (ws_handler emptyRegistry 5 none).1 = .error (.unauthorized, msg)) ∧
      (ws_handler emptyRegistry 5 none).2 = emptyRegistry) ∧
    ((∃ msg, (ws_handler emptyRegistry 5 (some " 12a ")).1 =
        .error (.unauthorized, msg)) ∧
      (ws_handler emptyRegistry 5 (some " 12a ")).2 = emptyRegistry) :=
  ⟨ws_handler_invalid_uid_rejected emptyRegistry 5 none (Or.inl rfl),
   ws_handler_invalid_uid_rejected emptyRegistry 5 (some " 12a ")
     (Or.inr ⟨" 12a ", rfl, by decide⟩)⟩

/-! ## Pagination lemmas (C2) -/

/-- Insertion grows the length by one. -/
theorem length_insertSorted (le : α → α → Bool) (a : α) (l : List α) :
    (insertSorted le a l).length = l.length + 1 := by
  induction l with
  | nil => rfl
  | cons b bs ih =>
    unfold insertSorted
    by_cases h : le a b
    · simp [h]
    · simp [h, ih]

/-- Sorting preserves the length. -/
theorem length_sortedBy (le : α → α → Bool) (l : List α) :
    (sortedBy le l).length = l.length := by
  induction l with
  | nil => rfl
  | cons a tail ih =>
    show (insertSorted le a (sortedBy le tail)).length = tail.length + 1
    rw [length_insertSorted, ih]

/-- The item list of a message page is the truncated row list mapped. -/
theorem length_messagesPageItems (db : DB) (l : List Message) :
    (messagesPageItems db l).length = l.length := by
  simp [messagesPageItems]

/-- The limit/cursor contract of the message-page tail: at most `maxL`
items, cursor present iff more than `maxL` rows came back, cursor = id
of the last returned item. -/
theorem messagesPage_spec (db : DB) (rows : List Message) (maxL : Int)
    (hm : 1 ≤ maxL) :
    (messagesPage db rows maxL).messages.length = min maxL.toNat rows.length ∧
    ((messagesPage db rows maxL).next_cursor.isSome ↔
      (rows.length : Int) > maxL) ∧
    (∀ c, (messagesPage db rows maxL).next_cursor = some c →
      (messagesPage db rows maxL).messages.getLast?.map (·.id) = some c) := by
  have hitems : (messagesPage db rows maxL).messages =
      messagesPageItems db (rows.take maxL.toNat) := rfl
  have hcur : (messagesPage db rows maxL).next_cursor =
      (if decide ((rows.length : Int) > maxL) then
        (messagesPageItems db (rows.take maxL.toNat)).getLast?.map (·.id)
      else none) := rfl
  have hlen : (messagesPageItems db (rows.take maxL.toNat)).length =
      min maxL.toNat rows.length := by
    rw [length_messagesPageItems, List.length_take]
  refine ⟨by rw [hitems, hlen], ?_, ?_⟩
  · rw [hcur]
    by_cases hgt : (rows.length : Int) > maxL
    · have hne : messagesPageItems db (rows.take maxL.toNat) ≠ [] := by
        intro hc
        have h0 : (messagesPageItems db (rows.take maxL.toNat)).length = 0 := by
          rw [hc]
          rfl
        rw [hlen] at h0
        omega
      have hsome : ((messagesPageItems db (rows.take maxL.toNat)).getLast?.map
          (·.id)).isSome = true := by
        rw [Option.isSome_map']
        exact List.getLast?_isSome.mpr hne
      rw [decide_eq_true hgt, if_pos rfl, hsome]
      simp [hgt]
    · simp [hgt]
  · rw [hcur, hitems]
    by_cases hgt : (rows.length : Int) > maxL
    · rw [decide_eq_true hgt, if_pos rfl]
      exact fun c hc => hc
    · simp [hgt]

/-- The limit/cursor contract of the chat-page tail. -/
theorem chatsPage_spec (rows : List ChatListRow) (limit : Int)
    (hm : 1 ≤ limit) :
    (chatsPage rows limit).chats.length = min limit.toNat rows.length ∧
    ((chatsPage rows limit).next_cursor.isSome ↔
      (rows.length : Int) > limit) ∧
    (∀ c, (chatsPage rows limit).next_cursor = some c →
      (chatsPage rows limit).chats.getLast?.map (·.id) = some c) := by
  have hitems : (chatsPage rows limit).chats =
      (rows.take limit.toNat).map (fun r =>
        ChatListItem.mk r.id r.name r.last_message_at) := rfl
  have hcur : (chatsPage rows limit).next_cursor =
      (if decide ((rows.length : Int) > limit) then
        ((rows.take limit.toNat).map (fun r =>
          ChatListItem.mk r.id r.name r.last_message_at)).getLast?.map (·.id)
      else none) := rfl
  have hlen : ((rows.take limit.toNat).map (fun r =>
      ChatListItem.mk r.id r.name r.last_message_at)).length =
      min limit.toNat rows.length := by
    rw [List.length_map, List.length_take]
  refine ⟨by rw [hitems, hlen], ?_, ?_⟩
  · rw [hcur]
    by_cases hgt : (rows.length : Int) > limit
    · have hne : (rows.take limit.toNat).map (fun r =>
          ChatListItem.mk r.id r.name r.last_message_at) ≠ [] := by
        intro hc
        have h0 : ((rows.take limit.toNat).map (fun r =>
            ChatListItem.mk r.id r.name r.last_message_at)).length = 0 := by
          rw [hc]
          rfl
        rw [hlen] at h0
        omega
      have hsome : (((rows.take limit.toNat).map (fun r =>
          ChatListItem.mk r.id r.name r.last_message_at)).getLast?.map
          (·.id)).isSome = true := by
        rw [Option.isSome_map']
        exact List.getLast?_isSome.mpr hne
      rw [decide_eq_true hgt, if_pos rfl, hsome]
      simp [hgt]
    · simp [hgt]
  · rw [hcur, hitems]
    by_cases hgt : (rows.length : Int) > limit
    · rw [decide_eq_true hgt, if_pos rfl]
      exact fun c hc => hc
    · simp [hgt]

/-- The rows matched by the chat-listing store query (before
`ORDER BY`/`LIMIT`): all member chats without a cursor; none when the
cursor chat is not found; the keyset-filtered member chats otherwise. -/
def chatsBase (db : DB) (uid : Int) (after : Option Int) : List ChatListRow :=
  match after with
  | none => chatRows db uid
  | some after_id =>
    match cursorRow db uid after_id with
    | none => []
    | some (cursor_at, cursor_id) =>
      (chatRows db uid).filter (fun r =>
        cursorPairLt r.last_message_at r.id cursor_at cursor_id)

/-- `get_messages` on a failed membership check. -/
theorem get_messages_eq_of_error (db : DB) (uid chat_id : Int)
    (before maxQ : Option Int) (e : HandlerError)
    (hcm : check_membership db chat_id uid = .error e) :
    get_messages db uid chat_id before maxQ = .error e := by
  unfold get_messages
  rw [hcm]

/-- `get_messages` on a successful membership check. -/
theorem get_messages_eq_of_ok (db : DB) (uid chat_id : Int)
    (before maxQ : Option Int)
    (hcm : check_membership db chat_id uid = .ok ()) :
    get_messages db uid chat_id before maxQ =
      .ok (messagesPage db
        ((sortedBy msgIdDescLe (messagesBase db chat_id before)).take
          ((effectiveLimit maxQ MAX_MESSAGES_LIMIT).toNat + 1))
        (effectiveLimit maxQ MAX_MESSAGES_LIMIT)) := by
  unfold get_messages
  rw [hcm]

/-- `get_chats` without a cursor. -/
theorem get_chats_eq_none (db : DB) (uid : Int) (limitQ : Option Int) :
    get_chats db uid limitQ none =
      .ok (chatsPage
        ((sortedBy chatKeyLe (chatRows db uid)).take
          ((effectiveLimit limitQ MAX_CHATS_LIMIT).toNat + 1))
        (effectiveLimit limitQ MAX_CHATS_LIMIT)) := rfl

/-- `get_chats` with a cursor, by the cursor lookup's result. -/
theorem get_chats_eq_some (db : DB) (uid : Int) (limitQ : Option Int)
    (after_id : Int) :
    get_chats db uid limitQ (some after_id) =
      (match cursorRow db uid after_id with
       | none => .ok ⟨[], none⟩
       | some (cursor_at, cursor_id) =>
         .ok (chatsPage
           ((sortedBy chatKeyLe ((chatRows db uid).filter (fun r =>
               cursorPairLt r.last_message_at r.id cursor_at cursor_id))).take
             ((effectiveLimit limitQ MAX_CHATS_LIMIT).toNat + 1))
           (effectiveLimit limitQ MAX_CHATS_LIMIT))) := rfl

/-- Claim C2: both listings use an effective limit equal to the
caller's value capped at `100` (`MAX_CHATS_LIMIT`/`MAX_MESSAGES_LIMIT`)
and floored to `1` (defaulting to `100` when absent), return at most
that many items, emit a next cursor iff the store matched more rows
than the effective limit (more rows exist beyond the page), and the
cursor is the id of the last returned item. -/
theorem listings_limit_cap_and_cursor (db : DB) (uid chat_id : Int)
    (before maxQ limitQ after : Option Int) :
    (∀ l, maxQ = some l →
      effectiveLimit maxQ MAX_MESSAGES_LIMIT = max (min l 100) 1) ∧
    (maxQ = none → effectiveLimit maxQ MAX_MESSAGES_LIMIT = 100) ∧
    (1 ≤ effectiveLimit maxQ MAX_MESSAGES_LIMIT ∧
      effectiveLimit maxQ MAX_MESSAGES_LIMIT ≤ 100) ∧
    (∀ resp, get_messages db uid chat_id before maxQ = .ok resp →
      (resp.messages.length : Int) ≤ effectiveLimit maxQ MAX_MESSAGES_LIMIT ∧
      (resp.next_cursor.isSome ↔
        ((messagesBase db chat_id before).length : Int) >
          effectiveLimit maxQ MAX_MESSAGES_LIMIT) ∧
      (∀ c, resp.next_cursor = some c →
        resp.messages.getLast?.map (·.id) = some c)) ∧
    (∀ resp, get_chats db uid limitQ after = .ok resp →
      (resp.chats.length : Int) ≤ effectiveLimit limitQ MAX_CHATS_LIMIT ∧
      (resp.next_cursor.isSome ↔
        ((chatsBase db uid after).length : Int) >
          effectiveLimit limitQ MAX_CHATS_LIMIT) ∧
      (∀ c, resp.next_cursor = some c →
        resp.chats.getLast?.map (·.id) = some c)) := by
  have hboundM : ∀ q : Option Int, 1 ≤ effectiveLimit q MAX_MESSAGES_LIMIT ∧
      effectiveLimit q MAX_MESSAGES_LIMIT ≤ 100 := by
    intro q
    cases q with
    | none =>
      unfold effectiveLimit MAX_MESSAGES_LIMIT
      constructor <;> simp
    | some l =>
      unfold effectiveLimit MAX_MESSAGES_LIMIT
      simp only [Option.map_some', Option.getD_some]
      constructor
      · exact le_max_right _ _
      · have h1 : min l 100 ≤ 100 := min_le_right l 100
        omega
  have hboundC : ∀ q : Option Int, 1 ≤ effectiveLimit q MAX_CHATS_LIMIT ∧
      effectiveLimit q MAX_CHATS_LIMIT ≤ 100 := by
    intro q
    cases q with
    | none =>
      unfold effectiveLimit MAX_CHATS_LIMIT
      constructor <;> simp
    | some l =>
      unfold effectiveLimit MAX_CHATS_LIMIT
      simp only [Option.map_some', Option.getD_some]
      constructor
      · exact le_max_right _ _
      · have h1 : min l 100 ≤ 100 := min_le_right l 100
        omega
  refine ⟨fun l hl => by rw [hl]; rfl, fun hn => by rw [hn]; rfl,
    hboundM maxQ, ?_, ?_⟩
  · intro resp h
    cases hcm : check_membership db chat_id uid with
    | error e =>
      rw [get_messages_eq_of_error db uid chat_id before maxQ e hcm] at h
      exact absurd h (by simp)
    | ok u =>
      cases u
      rw [get_messages_eq_of_ok db uid chat_id before maxQ hcm] at h
      injection h with h2
      subst h2
      have heff := hboundM maxQ
      have hspec := messagesPage_spec db
        ((sortedBy msgIdDescLe (messagesBase db chat_id before)).take
          ((effectiveLimit maxQ MAX_MESSAGES_LIMIT).toNat + 1))
        (effectiveLimit maxQ MAX_MESSAGES_LIMIT) heff.1
      have hrl : ((sortedBy msgIdDescLe (messagesBase db chat_id before)).take
          ((effectiveLimit maxQ MAX_MESSAGES_LIMIT).toNat + 1)).length =
          min ((effectiveLimit maxQ MAX_MESSAGES_LIMIT).toNat + 1)
            (messagesBase db chat_id before).length := by
        rw [List.length_take, length_sortedBy]
      refine ⟨?_, ?_, hspec.2.2⟩
      · rw [hspec.1]
        omega
      · rw [hspec.2.1, hrl]
        omega
  · intro resp h
    have heff := hboundC limitQ
    cases after with
    | none =>
      rw [get_chats_eq_none db uid limitQ] at h
      injection h with h2
      subst h2
      have hspec := chatsPage_spec
        ((sortedBy chatKeyLe (chatRows db uid)).take
          ((effectiveLimit limitQ MAX_CHATS_LIMIT).toNat + 1))
        (effectiveLimit limitQ MAX_CHATS_LIMIT) heff.1
      have hrl : ((sortedBy chatKeyLe (chatRows db uid)).take
          ((effectiveLimit limitQ MAX_CHATS_LIMIT).toNat + 1)).length =
          min ((effectiveLimit limitQ MAX_CHATS_LIMIT).toNat + 1)
            (chatRows db uid).length := by
        rw [List.length_take, length_sortedBy]
      have hbase : chatsBase db uid none = chatRows db uid := rfl
      refine ⟨?_, ?_, hspec.2.2⟩
      · rw [hspec.1]
        omega
      · rw [hspec.2.1, hrl, hbase]
        omega
    | some aid =>
      cases hcur : cursorRow db uid aid with
      | none =>
        have h1 : get_chats db uid limitQ (some aid) = .ok ⟨[], none⟩ := by
          rw [get_chats_eq_some, hcur]
        rw [h1] at h
        injection h with h2
        subst h2
        have hbase : chatsBase db uid (some aid) = [] := by
          simp [chatsBase, hcur]
        refine ⟨by simp; omega, ?_, by simp⟩
        rw [hbase]
        simp
        omega
      | some pair =>
        obtain ⟨cat, cid⟩ := pair
        have h1 : get_chats db uid limitQ (some aid) =
            .ok (chatsPage
              ((sortedBy chatKeyLe ((chatRows db uid).filter (fun r =>
                  cursorPairLt r.last_message_at r.id cat cid))).take
                ((effectiveLimit limitQ MAX_CHATS_LIMIT).toNat + 1))
              (effectiveLimit limitQ MAX_CHATS_LIMIT)) := by
          rw [get_chats_eq_some, hcur]
        rw [h1] at h
        injection h with h2
        subst h2
        have hspec := chatsPage_spec
          ((sortedBy chatKeyLe ((chatRows db uid).filter (fun r =>
              cursorPairLt r.last_message_at r.id cat cid))).take
            ((effectiveLimit limitQ MAX_CHATS_LIMIT).toNat + 1))
          (effectiveLimit limitQ MAX_CHATS_LIMIT) heff.1
        have hrl : ((sortedBy chatKeyLe ((chatRows db uid).filter (fun r =>
            cursorPairLt r.last_message_at r.id cat cid))).take
            ((effectiveLimit limitQ MAX_CHATS_LIMIT).toNat + 1)).length =
            min ((effectiveLimit limitQ MAX_CHATS_LIMIT).toNat + 1)
              ((chatRows db uid).filter (fun r =>
                cursorPairLt r.last_message_at r.id cat cid)).length := by
          rw [List.length_take, length_sortedBy]
        have hbase : chatsBase db uid (some aid) =
            (chatRows db uid).filter (fun r =>
              cursorPairLt r.last_message_at r.id cat cid) := by
          simp [chatsBase, hcur]
        refine ⟨?_, ?_, hspec.2.2⟩
        · rw [hspec.1]
          omega
        · rw [hspec.2.1, hrl, hbase]
          omega

/-- Concrete store for the C2 witness: chat 1 with two messages. -/
def listExampleDB : DB :=
  ⟨[⟨1, some "a", 5⟩],
   [⟨1, 7, "admin", 5⟩],
   [⟨100, some "hi", "text", none, none, "c1", 7, 1, 50, none, none, false⟩,
    ⟨101, some "yo", "text", none, none, "c2", 7, 1, 60, none, none, false⟩]⟩

/-- Witness for C2: with caller limit 1 over two stored messages, one
item comes back, the next cursor is present, and it is the id of the
last returned item. -/
theorem listings_limit_cap_and_cursor_witness :
    ∃ resp, get_messages listExampleDB 7 1 none (some 1) = .ok resp ∧
      (resp.messages.length : Int) ≤ effectiveLimit (some 1) MAX_MESSAGES_LIMIT ∧
      (resp.next_cursor.isSome ↔
        ((messagesBase listExampleDB 1 none).length : Int) >
          effectiveLimit (some 1) MAX_MESSAGES_LIMIT) ∧
      (∀ c, resp.next_cursor = some c →
        resp.messages.getLast?.map (·.id) = some c) := by
  have h := listings_limit_cap_and_cursor listExampleDB 7 1 none (some 1)
    none none
  have hresp : get_messages listExampleDB 7 1 none (some 1) =
      .ok ⟨[⟨101, some "yo", "text", none, none, "c2", 7, 1, 60, none, none,
        false, none⟩], some 101⟩ := by
    decide
  exact ⟨_, hresp, h.2.2.2.1 _ hresp⟩

/-! ## Ordering lemmas (C3) -/

/-- A chat has no `last_message_at` exactly when it has no messages. -/
theorem lastMessageAt_eq_none_iff (db : DB) (c : Int) :
    lastMessageAt db c = none ↔
      db.messages.filter (fun m => m.chat_id == c) = [] := by
  unfold lastMessageAt
  rw [List.max?_eq_none_iff]
  constructor
  · intro h
    exact List.map_eq_nil_iff.mp h
  · intro h
    rw [h]
    rfl

/-- With every message timestamp after the epoch, a present
`last_message_at` is after the epoch. -/
theorem lastMessageAt_pos (db : DB) (c t : Int)
    (hpos : ∀ m ∈ db.messages, 0 < m.created_at)
    (h : lastMessageAt db c = some t) : 0 < t := by
  unfold lastMessageAt at h
  have hmem := List.max?_mem (fun x y => max_choice x y) h
  obtain ⟨m, hm, hmc⟩ := List.mem_map.mp hmem
  have hmm : m ∈ db.messages := (List.mem_filter.mp hm).1
  rw [← hmc]
  exact hpos m hmm

/-- Claim C3: the keyset cursor comparison of the chat listing —
`(COALESCE(last_message_at, epoch), id) < (COALESCE(cursor_at, epoch),
cursor_id)` — is total (trichotomy with mutual exclusion on the
coalesced keys) and agrees with the listing order
`last_message_at DESC NULLS LAST, id DESC`; in particular a chat with
no messages sorts strictly after every chat with at least one message.
All message timestamps come from `Utc::now()` and are therefore after
the epoch sentinel, which is the `hpos` hypothesis. -/
theorem cursor_filter_total_and_agrees_with_order (db : DB)
    (hpos : ∀ m ∈ db.messages, 0 < m.created_at) (x y : ChatListRow)
    (hx : x.last_message_at = lastMessageAt db x.id)
    (hy : y.last_message_at = lastMessageAt db y.id) :
    (cursorPairLt x.last_message_at x.id y.last_message_at y.id = true ∨
     cursorPairLt y.last_message_at y.id x.last_message_at x.id = true ∨
     (coalesceEpoch x.last_message_at = coalesceEpoch y.last_message_at ∧
       x.id = y.id)) ∧
    (¬ (cursorPairLt x.last_message_at x.id y.last_message_at y.id = true ∧
        cursorPairLt y.last_message_at y.id x.last_message_at x.id = true)) ∧
    (cursorPairLt x.last_message_at x.id y.last_message_at y.id = true ↔
      chatRowBefore y x = true) ∧
    (db.messages.filter (fun m => m.chat_id == x.id) = [] →
     db.messages.filter (fun m => m.chat_id == y.id) ≠ [] →
     chatRowBefore y x = true ∧
       cursorPairLt x.last_message_at x.id y.last_message_at y.id = true) := by
  have hxk : ∀ t, x.last_message_at = some t → 0 < t := by
    intro t ht
    rw [hx] at ht
    exact lastMessageAt_pos db x.id t hpos ht
  have hyk : ∀ t, y.last_message_at = some t → 0 < t := by
    intro t ht
    rw [hy] at ht
    exact lastMessageAt_pos db y.id t hpos ht
  refine ⟨?_, ?_, ?_, ?_⟩
  · simp only [cursorPairLt, coalesceEpoch]
    cases x.last_message_at <;> cases y.last_message_at <;> simp <;> omega
  · simp only [cursorPairLt, coalesceEpoch]
    cases x.last_message_at <;> cases y.last_message_at <;> simp <;> omega
  · cases hxv : x.last_message_at with
    | none =>
      cases hyv : y.last_message_at with
      | none =>
        simp only [cursorPairLt, chatRowBefore, coalesceEpoch, hxv, hyv]
        simp
      | some ty =>
        have hty := hyk ty hyv
        simp only [cursorPairLt, chatRowBefore, coalesceEpoch, hxv, hyv]
        simp
        omega
    | some tx =>
      have htx := hxk tx hxv
      cases hyv : y.last_message_at with
      | none =>
        simp only [cursorPairLt, chatRowBefore, coalesceEpoch, hxv, hyv]
        simp
        omega
      | some ty =>
        have hty := hyk ty hyv
        simp only [cursorPairLt, chatRowBefore, coalesceEpoch, hxv, hyv]
        simp
        omega
  · intro hfx hfy
    have hxn : x.last_message_at = none := by
      rw [hx]
      exact (lastMessageAt_eq_none_iff db x.id).mpr hfx
    have hyn : ¬ y.last_message_at = none := by
      rw [hy]
      intro hc
      exact hfy ((lastMessageAt_eq_none_iff db y.id).mp hc)
    cases hyv : y.last_message_at with
    | none => exact absurd hyv hyn
    | some ty =>
      have hty := hyk ty hyv
      constructor
      · simp only [chatRowBefore, hyv, hxn]
      · simp only [cursorPairLt, coalesceEpoch, hxn, hyv, Option.getD_none,
          Option.getD_some]
        simp
        omega

/-- Witness for C3 at a concrete store: chat 2 has no messages and
sorts strictly after chat 1, which has one. -/
theorem cursor_filter_total_and_agrees_with_order_witness :
    chatRowBefore ⟨1, some "a", 5, some 50⟩ ⟨2, none, 6, none⟩ = true ∧
    cursorPairLt (none : Option Int) 2 (some 50) 1 = true := by
  have h := cursor_filter_total_and_agrees_with_order chatsExampleDB
    (by decide) ⟨2, none, 6, none⟩ ⟨1, some "a", 5, some 50⟩
    (by decide) (by decide)
  exact h.2.2.2 (by decide) (by decide)

/-! ## Write-handler lemmas (C4, C5, C1) -/

/-- `check_membership` succeeds exactly on a non-zero membership count. -/
theorem check_membership_ok (db : DB) (chat_id uid : Int)
    (hmem : membershipCount db chat_id uid ≠ 0) :
    check_membership db chat_id uid = .ok () := by
  unfold check_membership
  rw [if_neg hmem]

/-- `find?` commutes with a map that preserves the predicate. -/
theorem find?_map_preserving {α : Type} (g : α → α) (p : α → Bool)
    (hp : ∀ a, p (g a) = p a) (l : List α) :
    (l.map g).find? p = (l.find? p).map g := by
  induction l with
  | nil => rfl
  | cons a tail ih =>
    by_cases ha : p a
    · rw [List.map_cons, List.find?_cons_of_pos _ (show p (g a) from by
        rw [hp]; exact ha), List.find?_cons_of_pos _ ha, Option.map_some']
    · rw [List.map_cons, List.find?_cons_of_neg _ (show ¬ p (g a) = true from by
        rw [hp]; simpa using ha), List.find?_cons_of_neg _ (by simpa using ha), ih]

/-- `patch_message` when the message lookup fails: 404. -/
theorem patch_message_eq_notFound (db : DB) (uid chat_id message_id : Int)
    (newBody : String) (now : Int) (mid : DB → DB)
    (hcm : check_membership db chat_id uid = .ok ())
    (hfind : db.messages.find?
      (fun m => m.id == message_id && m.chat_id == chat_id) = none) :
    patch_message db uid chat_id message_id newBody now mid =
      (.error (.notFound, "Message not found"), db, []) := by
  unfold patch_message
  rw [hcm, hfind]

/-- `patch_message` when the requester is not the sender: 403. -/
theorem patch_message_eq_forbidden (db : DB) (uid chat_id message_id : Int)
    (newBody : String) (now : Int) (mid : DB → DB) (message : Message)
    (hcm : check_membership db chat_id uid = .ok ())
    (hfind : db.messages.find?
      (fun m => m.id == message_id && m.chat_id == chat_id) = some message)
    (hs : message.sender_uid ≠ uid) :
    patch_message db uid chat_id message_id newBody now mid =
      (.error (.forbidden, "You can only edit your own messages"), db, []) := by
  simp only [patch_message, hcm, hfind]
  rw [if_pos hs]

/-- `patch_message` on an already-deleted message: 400 invalid state. -/
theorem patch_message_eq_deleted (db : DB) (uid chat_id message_id : Int)
    (newBody : String) (now : Int) (mid : DB → DB) (message : Message)
    (hcm : check_membership db chat_id uid = .ok ())
    (hfind : db.messages.find?
      (fun m => m.id == message_id && m.chat_id == chat_id) = some message)
    (hs : message.sender_uid = uid) (hdel : message.deleted_at.isSome) :
    patch_message db uid chat_id message_id newBody now mid =
      (.error (.badRequest, "Cannot edit deleted message"), db, []) := by
  simp only [patch_message, hcm, hfind]
  rw [if_neg (fun hh => hh hs), if_pos hdel]

/-- `patch_message` on an empty trimmed body: 400 invalid input. -/
theorem patch_message_eq_emptyBody (db : DB) (uid chat_id message_id : Int)
    (newBody : String) (now : Int) (mid : DB → DB) (message : Message)
    (hcm : check_membership db chat_id uid = .ok ())
    (hfind : db.messages.find?
      (fun m => m.id == message_id && m.chat_id == chat_id) = some message)
    (hs : message.sender_uid = uid) (hdel : message.deleted_at = none)
    (hbody : (rustTrim newBody).data.isEmpty) :
    patch_message db uid chat_id message_id newBody now mid =
      (.error (.badRequest, "Message cannot be empty"), db, []) := by
  simp only [patch_message, hcm, hfind]
  rw [if_neg (fun hh => hh hs), if_neg (by rw [hdel]; simp), if_pos hbody]

/-- `patch_message` on the happy path with sequential (identity)
interference: the update is applied, the row is re-read, and the re-read
row is broadcast. -/
theorem patch_message_eq_success (db : DB) (uid chat_id message_id : Int)
    (newBody : String) (now : Int) (message m0 : Message)
    (hcm : check_membership db chat_id uid = .ok ())
    (hfind : db.messages.find?
      (fun m => m.id == message_id && m.chat_id == chat_id) = some message)
    (hs : message.sender_uid = uid) (hdel : message.deleted_at = none)
    (hbody : ¬ (rustTrim newBody).data.isEmpty)
    (hm0 : db.messages.find? (fun m => m.id == message_id) = some m0) :
    patch_message db uid chat_id message_id newBody now id =
      (.ok (MessageResponse.fromMessage
          { m0 with message := some newBody, updated_at := some now }),
        { db with messages := db.messages.map (fun m =>
          if m.id == message_id then
            { m with message := some newBody, updated_at := some now }
          else m) },
        [.persist, .broadcastEv "message_updated"
          (MessageResponse.fromMessage
            { m0 with message := some newBody, updated_at := some now })
          (memberUids
            { db with messages := db.messages.map (fun m =>
              if m.id == message_id then
                { m with message := some newBody, updated_at := some now }
              else m) } chat_id)]) := by
  have hid0 : (m0.id == message_id) = true := by
    simpa using List.find?_some hm0
  have hfind2 : (db.messages.map (fun m =>
      if m.id == message_id then
        { m with message := some newBody, updated_at := some now }
      else m)).find? (fun m => m.id == message_id) =
      some { m0 with message := some newBody, updated_at := some now } := by
    rw [find?_map_preserving _ _ (fun a => by
      by_cases ha : (a.id == message_id) = true <;> simp [ha]) db.messages, hm0,
      Option.map_some']
    rw [if_pos hid0]
  simp only [patch_message, hcm, hfind, id_eq]
  rw [if_neg (fun hh => hh hs), if_neg (by rw [hdel]; simp), if_neg hbody,
    hfind2]

/-- A successful `(id, chat_id)` lookup yields an id-only lookup hit. -/
theorem exists_find?_id (l : List Message) (i c : Int) (m : Message)
    (h : l.find? (fun mm => mm.id == i && mm.chat_id == c) = some m) :
    ∃ m0, l.find? (fun mm => mm.id == i) = some m0 := by
  have hmem := List.mem_of_find?_eq_some h
  have hp := List.find?_some h
  simp only [Bool.and_eq_true] at hp
  have hex : (l.find? (fun mm => mm.id == i)).isSome :=
    List.find?_isSome.mpr ⟨m, hmem, hp.1⟩
  exact Option.isSome_iff_exists.mp hex

/-- Claim C4: under chat membership (the precondition checked before the
coordinator runs), an edit fails with 404 NotFound when no message with
that id exists in that chat, 403 Forbidden when the requester is not the
sender, 400 "Cannot edit deleted message" (InvalidState) when the
message is deleted, and 400 "Message cannot be empty" (InvalidInput)
when the new body trims to empty; every error leaves the store
unchanged and issues no event; on success the stored message has its
body replaced and `updated_at` set to this edit's time, and the
response carries the new body and timestamp. -/
theorem patch_message_error_cases_and_success (db : DB)
    (uid chat_id message_id : Int) (newBody : String) (now : Int)
    (mid : DB → DB) (hmem : membershipCount db chat_id uid ≠ 0) :
    ((∀ m ∈ db.messages, ¬ (m.id = message_id ∧ m.chat_id = chat_id)) →
      patch_message db uid chat_id message_id newBody now mid =
        (.error (.notFound, "Message not found"), db, [])) ∧
    (∀ m, db.messages.find?
        (fun mm => mm.id == message_id && mm.chat_id == chat_id) = some m →
      m.sender_uid ≠ uid →
      patch_message db uid chat_id message_id newBody now mid =
        (.error (.forbidden, "You can only edit your own messages"), db, [])) ∧
    (∀ m, db.messages.find?
        (fun mm => mm.id == message_id && mm.chat_id == chat_id) = some m →
      m.sender_uid = uid → m.deleted_at.isSome →
      patch_message db uid chat_id message_id newBody now mid =
        (.error (.badRequest, "Cannot edit deleted message"), db, [])) ∧
    (∀ m, db.messages.find?
        (fun mm => mm.id == message_id && mm.chat_id == chat_id) = some m →
      m.sender_uid = uid → m.deleted_at = none →
      (rustTrim newBody).data.isEmpty →
      patch_message db uid chat_id message_id newBody now mid =
        (.error (.badRequest, "Message cannot be empty"), db, [])) ∧
    (∀ e db2 tr, patch_message db uid chat_id message_id newBody now id =
        (.error e, db2, tr) → db2 = db ∧ tr = []) ∧
    (∀ m, db.messages.find?
        (fun mm => mm.id == message_id && mm.chat_id == chat_id) = some m →
      m.sender_uid = uid → m.deleted_at = none →
      ¬ (rustTrim newBody).data.isEmpty →
      ∃ resp db2, patch_message db uid chat_id message_id newBody now id =
        (.ok resp, db2, [.persist, .broadcastEv "message_updated" resp
          (memberUids db2 chat_id)]) ∧
        db2.groups = db.groups ∧ db2.memberships = db.memberships ∧
        db2.messages.find?
          (fun mm => mm.id == message_id && mm.chat_id == chat_id) =
          some { m with message := some newBody, updated_at := some now } ∧
        resp.message = some newBody ∧ resp.updated_at = some now) := by
  have hcm := check_membership_ok db chat_id uid hmem
  have hp2 : ∀ a : Message,
      ((if a.id == message_id then
        { a with message := some newBody, updated_at := some now }
      else a).id == message_id &&
      (if a.id == message_id then
        { a with message := some newBody, updated_at := some now }
      else a).chat_id == chat_id) =
      (a.id == message_id && a.chat_id == chat_id) := by
    intro a
    by_cases ha : (a.id == message_id) = true <;> simp [ha]
  refine ⟨?_, ?_, ?_, ?_, ?_, ?_⟩
  · intro hno
    apply patch_message_eq_notFound db uid chat_id message_id newBody now mid hcm
    rw [List.find?_eq_none]
    intro m hm
    simp only [Bool.and_eq_true, beq_iff_eq, not_and]
    intro h1 h2
    exact hno m hm ⟨h1, h2⟩
  · intro m hf hs
    exact patch_message_eq_forbidden db uid chat_id message_id newBody now mid
      m hcm hf hs
  · intro m hf hs hd
    exact patch_message_eq_deleted db uid chat_id message_id newBody now mid
      m hcm hf hs hd
  · intro m hf hs hd hb
    exact patch_message_eq_emptyBody db uid chat_id message_id newBody now mid
      m hcm hf hs hd hb
  · intro e db2 tr h
    cases hf : db.messages.find?
        (fun mm => mm.id == message_id && mm.chat_id == chat_id) with
    | none =>
      rw [patch_message_eq_notFound db uid chat_id message_id newBody now id
        hcm hf] at h
      exact ⟨(congrArg (fun t => t.2.1) h).symm, (congrArg (fun t => t.2.2) h).symm⟩
    | some m =>
      by_cases hs : m.sender_uid ≠ uid
      · rw [patch_message_eq_forbidden db uid chat_id message_id newBody now id
          m hcm hf hs] at h
        exact ⟨(congrArg (fun t => t.2.1) h).symm,
          (congrArg (fun t => t.2.2) h).symm⟩
      · have hs2 : m.sender_uid = uid := not_not.mp hs
        by_cases hd : m.deleted_at.isSome
        · rw [patch_message_eq_deleted db uid chat_id message_id newBody now id
            m hcm hf hs2 hd] at h
          exact ⟨(congrArg (fun t => t.2.1) h).symm,
            (congrArg (fun t => t.2.2) h).symm⟩
        · have hd2 : m.deleted_at = none := Option.not_isSome_iff_eq_none.mp hd
          by_cases hb : (rustTrim newBody).data.isEmpty
          · rw [patch_message_eq_emptyBody db uid chat_id message_id newBody
              now id m hcm hf hs2 hd2 hb] at h
            exact ⟨(congrArg (fun t => t.2.1) h).symm,
              (congrArg (fun t => t.2.2) h).symm⟩
          · obtain ⟨m0, hm0⟩ := exists_find?_id db.messages message_id chat_id m hf
            rw [patch_message_eq_success db uid chat_id message_id newBody now
              m m0 hcm hf hs2 hd2 hb hm0] at h
            have := congrArg (fun t => t.1) h
            exact absurd this (by simp)
  · intro m hf hs hd hb
    obtain ⟨m0, hm0⟩ := exists_find?_id db.messages message_id chat_id m hf
    have hidm : (m.id == message_id) = true := by
      have := List.find?_some hf
      simp only [Bool.and_eq_true] at this
      exact this.1
    refine ⟨_, _, patch_message_eq_success db uid chat_id message_id newBody
      now m m0 hcm hf hs hd hb hm0, rfl, rfl, ?_, rfl, rfl⟩
    rw [show ({ db with messages := db.messages.map (fun m =>
        if m.id == message_id then
          { m with message := some newBody, updated_at := some now }
        else m) } : DB).messages = db.messages.map (fun m =>
        if m.id == message_id then
          { m with message := some newBody, updated_at := some now }
        else m) from rfl]
    rw [find?_map_preserving _ _ hp2 db.messages, hf, Option.map_some']
    rw [if_pos hidm]

/-- Concrete store for the C4/C5 witnesses: chat 1 with sender 7,
another member 8, and one active message 100. -/
def lifecycleExampleDB : DB :=
  ⟨[⟨1, some "a", 5⟩],
   [⟨1, 7, "admin", 5⟩, ⟨1, 8, "member", 6⟩],
   [⟨100, some "hi", "text", none, none, "c1", 7, 1, 50, none, none, false⟩]⟩

/-- Witness for C4: member 8 cannot edit 7's message (store unchanged,
no event); sender 7's edit succeeds with the new body and timestamp. -/
theorem patch_message_error_cases_and_success_witness :
    patch_message lifecycleExampleDB 8 1 100 "new" 70 id =
      (.error (.forbidden, "You can only edit your own messages"),
        lifecycleExampleDB, []) ∧
    (∃ resp db2, patch_message lifecycleExampleDB 7 1 100 "new" 70 id =
      (.ok resp, db2, [.persist, .broadcastEv "message_updated" resp
        (memberUids db2 1)]) ∧
      resp.message = some "new" ∧ resp.updated_at = some 70) := by
  have h8 := patch_message_error_cases_and_success lifecycleExampleDB 8 1 100
    "new" 70 id (by decide)
  have h7 := patch_message_error_cases_and_success lifecycleExampleDB 7 1 100
    "new" 70 id (by decide)
  constructor
  · exact h8.2.1 ⟨100, some "hi", "text", none, none, "c1", 7, 1, 50, none,
      none, false⟩ (by decide) (by decide)
  · obtain ⟨resp, db2, heq, _, _, _, hm, hu⟩ := h7.2.2.2.2.2
      ⟨100, some "hi", "text", none, none, "c1", 7, 1, 50, none, none, false⟩
      (by decide) (by decide) (by decide) (by decide)
    exact ⟨resp, db2, heq, hm, hu⟩

/-- `delete_message` on an already-deleted message: 410 Gone. -/
theorem delete_message_eq_gone (db : DB) (uid chat_id message_id : Int)
    (now : Int) (mid : DB → DB) (message : Message)
    (hcm : check_membership db chat_id uid = .ok ())
    (hfind : db.messages.find?
      (fun m => m.id == message_id && m.chat_id == chat_id) = some message)
    (hs : message.sender_uid = uid) (hdel : message.deleted_at.isSome) :
    delete_message db uid chat_id message_id now mid =
      (.error (.gone, "Message already deleted"), db, []) := by
  simp only [delete_message, hcm, hfind]
  rw [if_neg (fun hh => hh hs), if_pos hdel]

/-- `delete_message` on the happy path with sequential (identity)
interference: `deleted_at` is set (row and body retained), the row is
re-read, and the re-read row is broadcast. -/
theorem delete_message_eq_success (db : DB) (uid chat_id message_id : Int)
    (now : Int) (message m0 : Message)
    (hcm : check_membership db chat_id uid = .ok ())
    (hfind : db.messages.find?
      (fun m => m.id == message_id && m.chat_id == chat_id) = some message)
    (hs : message.sender_uid = uid) (hdel : message.deleted_at = none)
    (hm0 : db.messages.find? (fun m => m.id == message_id) = some m0) :
    delete_message db uid chat_id message_id now id =
      (.ok .noContent,
        { db with messages := db.messages.map (fun m =>
          if m.id == message_id then { m with deleted_at := some now }
          else m) },
        [.persist, .broadcastEv "message_deleted"
          (MessageResponse.fromMessage { m0 with deleted_at := some now })
          (memberUids
            { db with messages := db.messages.map (fun m =>
              if m.id == message_id then { m with deleted_at := some now }
              else m) } chat_id)]) := by
  have hid0 : (m0.id == message_id) = true := by
    simpa using List.find?_some hm0
  have hfind2 : (db.messages.map (fun m =>
      if m.id == message_id then { m with deleted_at := some now }
      else m)).find? (fun m => m.id == message_id) =
      some { m0 with deleted_at := some now } := by
    rw [find?_map_preserving _ _ (fun a => by
      by_cases ha : (a.id == message_id) = true <;> simp [ha]) db.messages, hm0,
      Option.map_some']
    rw [if_pos hid0]
  simp only [delete_message, hcm, hfind, id_eq]
  rw [if_neg (fun hh => hh hs), if_neg (by rw [hdel]; simp), hfind2]

/-- Claim C5: the per-message state machine.  Under membership and
ownership: deleting an active message succeeds with 204, sets
`deleted_at` while retaining the row and the body, and broadcasts the
re-read row; on the resulting state a second delete fails with 410
"Message already deleted" (AlreadyDeleted) and an edit fails with 400
"Cannot edit deleted message" (InvalidState), both leaving the store
unchanged; the same two failures hold on any state whose message is
already deleted; and a successful edit of an active message leaves it
active (`deleted_at` still `none`). -/
theorem message_state_machine (db : DB) (uid chat_id message_id : Int)
    (now now2 : Int) (newBody : String) (mid : DB → DB)
    (hmem : membershipCount db chat_id uid ≠ 0) :
    (∀ m, db.messages.find?
        (fun mm => mm.id == message_id && mm.chat_id == chat_id) = some m →
      m.sender_uid = uid → m.deleted_at = none →
      ∃ resp db2, delete_message db uid chat_id message_id now id =
        (.ok .noContent, db2, [.persist, .broadcastEv "message_deleted" resp
          (memberUids db2 chat_id)]) ∧
        db2.groups = db.groups ∧ db2.memberships = db.memberships ∧
        db2.messages.find?
          (fun mm => mm.id == message_id && mm.chat_id == chat_id) =
          some { m with deleted_at := some now } ∧
        ({ m with deleted_at := some now } : Message).message = m.message ∧
        delete_message db2 uid chat_id message_id now2 id =
          (.error (.gone, "Message already deleted"), db2, []) ∧
        patch_message db2 uid chat_id message_id newBody now2 id =
          (.error (.badRequest, "Cannot edit deleted message"), db2, [])) ∧
    (∀ m, db.messages.find?
        (fun mm => mm.id == message_id && mm.chat_id == chat_id) = some m →
      m.sender_uid = uid → m.deleted_at.isSome →
      delete_message db uid chat_id message_id now mid =
        (.error (.gone, "Message already deleted"), db, [])) ∧
    (∀ m, db.messages.find?
        (fun mm => mm.id == message_id && mm.chat_id == chat_id) = some m →
      m.sender_uid = uid → m.deleted_at.isSome →
      patch_message db uid chat_id message_id newBody now mid =
        (.error (.badRequest, "Cannot edit deleted message"), db, [])) ∧
    (∀ m, db.messages.find?
        (fun mm => mm.id == message_id && mm.chat_id == chat_id) = some m →
      m.sender_uid = uid → m.deleted_at = none →
      ¬ (rustTrim newBody).data.isEmpty →
      ∃ db2, (patch_message db uid chat_id message_id newBody now id).2.1 = db2 ∧
        db2.messages.find?
          (fun mm => mm.id == message_id && mm.chat_id == chat_id) =
          some { m with message := some newBody, updated_at := some now } ∧
        ({ m with message := some newBody, updated_at := some now } :
          Message).deleted_at = none) := by
  have hcm := check_membership_ok db chat_id uid hmem
  refine ⟨?_, ?_, ?_, ?_⟩
  · intro m hf hs hd
    obtain ⟨m0, hm0⟩ := exists_find?_id db.messages message_id chat_id m hf
    have hidm : (m.id == message_id) = true := by
      have := List.find?_some hf
      simp only [Bool.and_eq_true] at this
      exact this.1
    have hfind2 : ({ db with messages := db.messages.map (fun m =>
        if m.id == message_id then { m with deleted_at := some now }
        else m) } : DB).messages.find?
        (fun mm => mm.id == message_id && mm.chat_id == chat_id) =
        some { m with deleted_at := some now } := by
      rw [show ({ db with messages := db.messages.map (fun m =>
          if m.id == message_id then { m with deleted_at := some now }
          else m) } : DB).messages = db.messages.map (fun m =>
          if m.id == message_id then { m with deleted_at := some now }
          else m) from rfl]
      rw [find?_map_preserving _ _ (fun a => by
        by_cases ha : (a.id == message_id) = true <;> simp [ha]) db.messages,
        hf, Option.map_some']
      rw [if_pos hidm]
    have hmem2 : membershipCount { db with messages := db.messages.map (fun m =>
        if m.id == message_id then { m with deleted_at := some now }
        else m) } chat_id uid ≠ 0 := by
      unfold membershipCount
      unfold membershipCount at hmem
      exact hmem
    have hcm2 := check_membership_ok _ chat_id uid hmem2
    refine ⟨_, _, delete_message_eq_success db uid chat_id message_id now m m0
      hcm hf hs hd hm0, rfl, rfl, hfind2, rfl, ?_, ?_⟩
    · exact delete_message_eq_gone _ uid chat_id message_id now2 id
        { m with deleted_at := some now } hcm2 hfind2 hs (by simp)
    · exact patch_message_eq_deleted _ uid chat_id message_id newBody now2 id
        { m with deleted_at := some now } hcm2 hfind2 hs (by simp)
  · intro m hf hs hd
    exact delete_message_eq_gone db uid chat_id message_id now mid m hcm hf hs hd
  · intro m hf hs hd
    exact patch_message_eq_deleted db uid chat_id message_id newBody now mid m
      hcm hf hs hd
  · intro m hf hs hd hb
    obtain ⟨m0, hm0⟩ := exists_find?_id db.messages message_id chat_id m hf
    have hidm : (m.id == message_id) = true := by
      have := List.find?_some hf
      simp only [Bool.and_eq_true] at this
      exact this.1
    refine ⟨_, by
      rw [patch_message_eq_success db uid chat_id message_id newBody now m m0
        hcm hf hs hd hb hm0], ?_, hd⟩
    rw [show ({ db with messages := db.messages.map (fun m =>
        if m.id == message_id then
          { m with message := some newBody, updated_at := some now }
        else m) } : DB).messages = db.messages.map (fun m =>
        if m.id == message_id then
          { m with message := some newBody, updated_at := some now }
        else m) from rfl]
    rw [find?_map_preserving _ _ (fun a => by
      by_cases ha : (a.id == message_id) = true <;> simp [ha]) db.messages,
      hf, Option.map_some']
    rw [if_pos hidm]

/-- Witness for C5: deleting message 100 succeeds and sets
`deleted_at = 80` with the body retained; on the resulting store the
second delete is 410 and the edit is 400, both no-ops. -/
theorem message_state_machine_witness :
    ∃ resp db2, delete_message lifecycleExampleDB 7 1 100 80 id =
      (.ok .noContent, db2, [.persist, .broadcastEv "message_deleted" resp
        (memberUids db2 1)]) ∧
      db2.messages.find? (fun mm => mm.id == 100 && mm.chat_id == 1) =
        some ⟨100, some "hi", "text", none, none, "c1", 7, 1, 50, none,
          some 80, false⟩ ∧
      delete_message db2 7 1 100 90 id =
        (.error (.gone, "Message already deleted"), db2, []) ∧
      patch_message db2 7 1 100 "new" 90 id =
        (.error (.badRequest, "Cannot edit deleted message"), db2, []) := by
  have h := message_state_machine lifecycleExampleDB 7 1 100 80 90 "new" id
    (by decide)
  obtain ⟨resp, db2, heq, _, _, hfind, _, hgone, hpatch⟩ := h.1
    ⟨100, some "hi", "text", none, none, "c1", 7, 1, 50, none, none, false⟩
    (by decide) (by decide) (by decide)
  exact ⟨resp, db2, heq, hfind, hgone, hpatch⟩

/-! ## Trace lemmas (C1) -/

/-- `patch_message` on a failed membership check. -/
theorem patch_message_eq_memError (db : DB) (uid chat_id message_id : Int)
    (newBody : String) (now : Int) (mid : DB → DB) (e : HandlerError)
    (hcm : check_membership db chat_id uid = .error e) :
    patch_message db uid chat_id message_id newBody now mid =
      (.error e, db, []) := by
  unfold patch_message
  rw [hcm]

/-- `post_message` on a failed membership check. -/
theorem post_message_eq_memError (db : DB) (uid chat_id : Int)
    (body : CreateMessageBody) (newId now : Int) (mid : DB → DB)
    (e : HandlerError) (hcm : check_membership db chat_id uid = .error e) :
    post_message db uid chat_id body newId now mid = (.error e, db, []) := by
  unfold post_message
  rw [hcm]

/-- `delete_message` on a failed membership check. -/
theorem delete_message_eq_memError (db : DB) (uid chat_id message_id : Int)
    (now : Int) (mid : DB → DB) (e : HandlerError)
    (hcm : check_membership db chat_id uid = .error e) :
    delete_message db uid chat_id message_id now mid = (.error e, db, []) := by
  unfold delete_message
  rw [hcm]

/-- `delete_message` when the message lookup fails: 404. -/
theorem delete_message_eq_notFound (db : DB) (uid chat_id message_id : Int)
    (now : Int) (mid : DB → DB)
    (hcm : check_membership db chat_id uid = .ok ())
    (hfind : db.messages.find?
      (fun m => m.id == message_id && m.chat_id == chat_id) = none) :
    delete_message db uid chat_id message_id now mid =
      (.error (.notFound, "Message not found"), db, []) := by
  unfold delete_message
  rw [hcm, hfind]

/-- `delete_message` when the requester is not the sender: 403. -/
theorem delete_message_eq_forbidden (db : DB) (uid chat_id message_id : Int)
    (now : Int) (mid : DB → DB) (message : Message)
    (hcm : check_membership db chat_id uid = .ok ())
    (hfind : db.messages.find?
      (fun m => m.id == message_id && m.chat_id == chat_id) = some message)
    (hs : message.sender_uid ≠ uid) :
    delete_message db uid chat_id message_id now mid =
      (.error (.forbidden, "You can only delete your own messages"), db, []) := by
  simp only [delete_message, hcm, hfind]
  rw [if_pos hs]

/-- The store after the acknowledged edit write of `patch_message`. -/
def patchWrittenDb (db : DB) (message_id : Int) (newBody : String)
    (now : Int) : DB :=
  { db with messages := db.messages.map (fun m =>
      if m.id == message_id then
        { m with message := some newBody, updated_at := some now }
      else m) }

/-- The store after the acknowledged soft-delete write of
`delete_message`. -/
def deleteWrittenDb (db : DB) (message_id : Int) (now : Int) : DB :=
  { db with messages := db.messages.map (fun m =>
      if m.id == message_id then { m with deleted_at := some now } else m) }

/-- The `new_msg` row inserted by `post_message`. -/
def postNewMsg (uid chat_id : Int) (body : CreateMessageBody)
    (newId now : Int) : Message :=
  { id := newId
    message := body.message
    message_type := body.message_type
    reply_to_id := body.reply_to_id
    reply_root_id := body.reply_root_id
    client_generated_id := body.client_generated_id
    sender_uid := uid
    chat_id := chat_id
    created_at := now
    updated_at := none
    deleted_at := none
    has_attachments := false }

/-- The store after the acknowledged insert of `post_message`. -/
def postWrittenDb (db : DB) (uid chat_id : Int) (body : CreateMessageBody)
    (newId now : Int) : DB :=
  { db with messages := db.messages ++ [postNewMsg uid chat_id body newId now] }

/-- The response `post_message` sends and broadcasts: the `new_msg`
input fields plus the reply preview read after the write. -/
def postResponse (db : DB) (uid chat_id : Int) (body : CreateMessageBody)
    (newId now : Int) (mid : DB → DB) : MessageResponse :=
  { id := newId
    message := body.message
    message_type := body.message_type
    reply_to_id := body.reply_to_id
    reply_root_id := body.reply_root_id
    client_generated_id := body.client_generated_id
    sender_uid := uid
    chat_id := chat_id
    created_at := now
    updated_at := none
    deleted_at := none
    has_attachments := false
    reply_to_message := body.reply_to_id.bind (fun rid =>
      ((mid (postWrittenDb db uid chat_id body newId now)).messages.find?
        (fun m => m.id == rid)).map (fun r =>
        ReplyToMessage.mk r.id r.message r.sender_uid r.deleted_at)) }

/-- `post_message` on a successful membership check: persist, then
broadcast the input-derived response. -/
theorem post_message_eq_ok (db : DB) (uid chat_id : Int)
    (body : CreateMessageBody) (newId now : Int) (mid : DB → DB)
    (hcm : check_membership db chat_id uid = .ok ()) :
    post_message db uid chat_id body newId now mid =
      (.ok (postResponse db uid chat_id body newId now mid),
        mid (postWrittenDb db uid chat_id body newId now),
        [.persist, .broadcastEv "message"
          (postResponse db uid chat_id body newId now mid)
          (memberUids (mid (postWrittenDb db uid chat_id body newId now))
            chat_id)]) := by
  unfold post_message postResponse postWrittenDb postNewMsg
  rw [hcm]

/-- The tail of `patch_message` after all checks pass, for an arbitrary
interference `mid`: re-read from the post-write store and broadcast the
re-read row, or 500 when the re-read fails. -/
theorem patch_message_tail (db : DB) (uid chat_id message_id : Int)
    (newBody : String) (now : Int) (mid : DB → DB) (message : Message)
    (hcm : check_membership db chat_id uid = .ok ())
    (hfind : db.messages.find?
      (fun m => m.id == message_id && m.chat_id == chat_id) = some message)
    (hs : message.sender_uid = uid) (hdel : message.deleted_at = none)
    (hbody : ¬ (rustTrim newBody).data.isEmpty) :
    patch_message db uid chat_id message_id newBody now mid =
      (match (mid (patchWrittenDb db message_id newBody now)).messages.find?
          (fun m => m.id == message_id) with
       | none =>
         (.error (.internalServerError, "Failed to fetch updated message"),
           mid (patchWrittenDb db message_id newBody now), [.persist])
       | some updated_message =>
         (.ok (MessageResponse.fromMessage updated_message),
           mid (patchWrittenDb db message_id newBody now),
           [.persist, .broadcastEv "message_updated"
             (MessageResponse.fromMessage updated_message)
             (memberUids (mid (patchWrittenDb db message_id newBody now))
               chat_id)])) := by
  simp only [patch_message, hcm, hfind]
  rw [if_neg (fun hh => hh hs), if_neg (by rw [hdel]; simp), if_neg hbody]
  rfl

/-- The tail of `delete_message` after all checks pass, for an
arbitrary interference `mid`. -/
theorem delete_message_tail (db : DB) (uid chat_id message_id : Int)
    (now : Int) (mid : DB → DB) (message : Message)
    (hcm : check_membership db chat_id uid = .ok ())
    (hfind : db.messages.find?
      (fun m => m.id == message_id && m.chat_id == chat_id) = some message)
    (hs : message.sender_uid = uid) (hdel : message.deleted_at = none) :
    delete_message db uid chat_id message_id now mid =
      (match (mid (deleteWrittenDb db message_id now)).messages.find?
          (fun m => m.id == message_id) with
       | none =>
         (.error (.internalServerError, "Failed to fetch deleted message"),
           mid (deleteWrittenDb db message_id now), [.persist])
       | some deleted_message =>
         (.ok .noContent,
           mid (deleteWrittenDb db message_id now),
           [.persist, .broadcastEv "message_deleted"
             (MessageResponse.fromMessage deleted_message)
             (memberUids (mid (deleteWrittenDb db message_id now))
               chat_id)])) := by
  simp only [delete_message, hcm, hfind]
  rw [if_neg (fun hh => hh hs), if_neg (by rw [hdel]; simp)]
  rfl

/-- Full case analysis of `post_message` outputs: the broadcast never
precedes the persist, and a success broadcasts exactly the
input-derived response after the write. -/
theorem post_message_out_spec (db : DB) (uid chat_id : Int)
    (body : CreateMessageBody) (newId now : Int) (mid : DB → DB) :
    noBroadcastBeforePersist
      (post_message db uid chat_id body newId now mid).2.2 = true ∧
    (∀ resp, (post_message db uid chat_id body newId now mid).1 = .ok resp →
      resp.id = newId ∧ resp.message = body.message ∧
      resp.created_at = now ∧ resp.updated_at = none ∧
      resp.deleted_at = none ∧
      (post_message db uid chat_id body newId now mid).2.2 =
        [.persist, .broadcastEv "message" resp
          (memberUids (post_message db uid chat_id body newId now mid).2.1
            chat_id)]) := by
  cases hcm : check_membership db chat_id uid with
  | error e =>
    rw [post_message_eq_memError db uid chat_id body newId now mid e hcm]
    exact ⟨rfl, fun resp h => absurd h (by simp)⟩
  | ok u =>
    cases u
    rw [post_message_eq_ok db uid chat_id body newId now mid hcm]
    refine ⟨rfl, fun resp h => ?_⟩
    injection h with hresp
    subst hresp
    exact ⟨rfl, rfl, rfl, rfl, rfl, rfl⟩

/-- Full case analysis of `patch_message` outputs: the broadcast never
precedes the persist, and a success broadcasts exactly the row re-read
from the post-write store. -/
theorem patch_message_out_spec (db : DB) (uid chat_id message_id : Int)
    (newBody : String) (now : Int) (mid : DB → DB) :
    noBroadcastBeforePersist
      (patch_message db uid chat_id message_id newBody now mid).2.2 = true ∧
    (∀ resp,
      (patch_message db uid chat_id message_id newBody now mid).1 = .ok resp →
      ((patch_message db uid chat_id message_id newBody now
          mid).2.1.messages.find? (fun m => m.id == message_id)).map
        MessageResponse.fromMessage = some resp ∧
      (patch_message db uid chat_id message_id newBody now mid).2.2 =
        [.persist, .broadcastEv "message_updated" resp
          (memberUids
            (patch_message db uid chat_id message_id newBody now mid).2.1
            chat_id)]) := by
  cases hcm : check_membership db chat_id uid with
  | error e =>
    rw [patch_message_eq_memError db uid chat_id message_id newBody now mid e hcm]
    exact ⟨rfl, fun resp h => absurd h (by simp)⟩
  | ok u =>
    cases u
    cases hf : db.messages.find?
        (fun m => m.id == message_id && m.chat_id == chat_id) with
    | none =>
      rw [patch_message_eq_notFound db uid chat_id message_id newBody now mid
        hcm hf]
      exact ⟨rfl, fun resp h => absurd h (by simp)⟩
    | some m =>
      by_cases h1 : m.sender_uid ≠ uid
      · rw [patch_message_eq_forbidden db uid chat_id message_id newBody now
          mid m hcm hf h1]
        exact ⟨rfl, fun resp h => absurd h (by simp)⟩
      · have hs := not_not.mp h1
        by_cases h2 : m.deleted_at.isSome
        · rw [patch_message_eq_deleted db uid chat_id message_id newBody now
            mid m hcm hf hs h2]
          exact ⟨rfl, fun resp h => absurd h (by simp)⟩
        · have hd := Option.not_isSome_iff_eq_none.mp h2
          by_cases h3 : (rustTrim newBody).data.isEmpty
          · rw [patch_message_eq_emptyBody db uid chat_id message_id newBody
              now mid m hcm hf hs hd h3]
            exact ⟨rfl, fun resp h => absurd h (by simp)⟩
          · rw [patch_message_tail db uid chat_id message_id newBody now mid m
              hcm hf hs hd h3]
            cases hfu : (mid (patchWrittenDb db message_id newBody
                now)).messages.find? (fun m => m.id == message_id) with
            | none =>
              rw [hfu]
              exact ⟨rfl, fun resp h => absurd h (by simp)⟩
            | some updated =>
              rw [hfu]
              refine ⟨rfl, fun resp h => ?_⟩
              injection h with hresp
              subst hresp
              exact ⟨rfl, rfl⟩

/-- Full case analysis of `delete_message` outputs: the broadcast never
precedes the persist, and a success broadcasts exactly the row re-read
from the post-write store. -/
theorem delete_message_out_spec (db : DB) (uid chat_id message_id : Int)
    (now : Int) (mid : DB → DB) :
    noBroadcastBeforePersist
      (delete_message db uid chat_id message_id now mid).2.2 = true ∧
    (∀ st, (delete_message db uid chat_id message_id now mid).1 = .ok st →
      ∃ m, (delete_message db uid chat_id message_id now
          mid).2.1.messages.find? (fun mm => mm.id == message_id) = some m ∧
        (delete_message db uid chat_id message_id now mid).2.2 =
          [.persist, .broadcastEv "message_deleted"
            (MessageResponse.fromMessage m)
            (memberUids
              (delete_message db uid chat_id message_id now mid).2.1
              chat_id)]) := by
  cases hcm : check_membership db chat_id uid with
  | error e =>
    rw [delete_message_eq_memError db uid chat_id message_id now mid e hcm]
    exact ⟨rfl, fun st h => absurd h (by simp)⟩
  | ok u =>
    cases u
    cases hf : db.messages.find?
        (fun m => m.id == message_id && m.chat_id == chat_id) with
    | none =>
      rw [delete_message_eq_notFound db uid chat_id message_id now mid hcm hf]
      exact ⟨rfl, fun st h => absurd h (by simp)⟩
    | some m =>
      by_cases h1 : m.sender_uid ≠ uid
      · rw [delete_message_eq_forbidden db uid chat_id message_id now mid m
          hcm hf h1]
        exact ⟨rfl, fun st h => absurd h (by simp)⟩
      · have hs := not_not.mp h1
        by_cases h2 : m.deleted_at.isSome
        · rw [delete_message_eq_gone db uid chat_id message_id now mid m hcm
            hf hs h2]
          exact ⟨rfl, fun st h => absurd h (by simp)⟩
        · have hd := Option.not_isSome_iff_eq_none.mp h2
          rw [delete_message_tail db uid chat_id message_id now mid m hcm hf
            hs hd]
          cases hfu : (mid (deleteWrittenDb db message_id now)).messages.find?
              (fun m => m.id == message_id) with
          | none =>
            rw [hfu]
            exact ⟨rfl, fun st h => absurd h (by simp)⟩
          | some deleted =>
            rw [hfu]
            exact ⟨rfl, fun st h => ⟨deleted, rfl, rfl⟩⟩

/-- Concrete interference for the C1 counterexample: a concurrent edit
of the freshly inserted message landing between the acknowledged insert
and the broadcast. -/
def c1Interference : DB → DB := fun db =>
  { db with messages := db.messages.map (fun m =>
      if m.id == 10 then { m with message := some "changed" } else m) }

/-- The create request body of the C1 counterexample. -/
def c1Body : CreateMessageBody := ⟨some "hi", "text", "cg", none, none⟩

/-- Counterexample to C1 as stated: on a successful create, the
broadcast payload is built from the pre-write input, not re-read from
storage — a concurrent edit of the row between the persist and the
broadcast is not reflected in the pushed payload. -/
theorem create_broadcast_payload_not_reread :
    (broadcastPayloads
      (post_message chatsExampleDB 7 1 c1Body 10 99 c1Interference).2.2).map
      (·.message) = [some "hi"] ∧
    ((post_message chatsExampleDB 7 1 c1Body 10 99
        c1Interference).2.1.messages.filter (fun m => m.id == 10)).map
      (·.message) = [some "changed"] ∧
    broadcastPayloads
      (post_message chatsExampleDB 7 1 c1Body 10 99 c1Interference).2.2 ≠
      ((post_message chatsExampleDB 7 1 c1Body 10 99
        c1Interference).2.1.messages.filter (fun m => m.id == 10)).map
        MessageResponse.fromMessage := by
  decide

/-- Claim C1 (amended): for every create, edit and delete, the
broadcast is issued only after the persistence write is acknowledged;
for edit and delete the payload is the freshly re-read row from the
post-write store (so concurrent writes between the persist and the
broadcast are reflected), while for create the payload is built from
the pre-write input values as inserted — only the reply preview and
the member list are read after the write — so a concurrent write in
that window is not reflected in the create push. -/
theorem broadcast_after_persist_payload_spec (db : DB)
    (uid chat_id message_id newId now : Int) (body : CreateMessageBody)
    (newBody : String) (mid : DB → DB) :
    (noBroadcastBeforePersist
      (post_message db uid chat_id body newId now mid).2.2 = true) ∧
    (noBroadcastBeforePersist
      (patch_message db uid chat_id message_id newBody now mid).2.2 = true) ∧
    (noBroadcastBeforePersist
      (delete_message db uid chat_id message_id now mid).2.2 = true) ∧
    (∀ resp,
      (patch_message db uid chat_id message_id newBody now mid).1 = .ok resp →
      ((patch_message db uid chat_id message_id newBody now
          mid).2.1.messages.find? (fun m => m.id == message_id)).map
        MessageResponse.fromMessage = some resp ∧
      (patch_message db uid chat_id message_id newBody now mid).2.2 =
        [.persist, .broadcastEv "message_updated" resp
          (memberUids
            (patch_message db uid chat_id message_id newBody now mid).2.1
            chat_id)]) ∧
    (∀ st, (delete_message db uid chat_id message_id now mid).1 = .ok st →
      ∃ m, (delete_message db uid chat_id message_id now
          mid).2.1.messages.find? (fun mm => mm.id == message_id) = some m ∧
        (delete_message db uid chat_id message_id now mid).2.2 =
          [.persist, .broadcastEv "message_deleted"
            (MessageResponse.fromMessage m)
            (memberUids
              (delete_message db uid chat_id message_id now mid).2.1
              chat_id)]) ∧
    (∀ resp, (post_message db uid chat_id body newId now mid).1 = .ok resp →
      resp.id = newId ∧ resp.message = body.message ∧
      resp.created_at = now ∧ resp.updated_at = none ∧
      resp.deleted_at = none ∧
      (post_message db uid chat_id body newId now mid).2.2 =
        [.persist, .broadcastEv "message" resp
          (memberUids (post_message db uid chat_id body newId now mid).2.1
            chat_id)]) :=
  ⟨(post_message_out_spec db uid chat_id body newId now mid).1,
   (patch_message_out_spec db uid chat_id message_id newBody now mid).1,
   (delete_message_out_spec db uid chat_id message_id now mid).1,
   (patch_message_out_spec db uid chat_id message_id newBody now mid).2,
   (delete_message_out_spec db uid chat_id message_id now mid).2,
   (post_message_out_spec db uid chat_id body newId now mid).2⟩

/-- Witness for the amended C1: a concrete successful edit broadcasts
the freshly re-read row after the persist. -/
theorem broadcast_after_persist_payload_spec_witness :
    noBroadcastBeforePersist
      (patch_message lifecycleExampleDB 7 1 100 "new" 70 id).2.2 = true ∧
    ((patch_message lifecycleExampleDB 7 1 100 "new" 70
        id).2.1.messages.find? (fun m => m.id == 100)).map
      MessageResponse.fromMessage =
      some ⟨100, some "new", "text", none, none, "c1", 7, 1, 50, some 70,
        none, false, none⟩ := by
  have hresp : (patch_message lifecycleExampleDB 7 1 100 "new" 70 id).1 =
      .ok ⟨100, some "new", "text", none, none, "c1", 7, 1, 50, some 70,
        none, false, none⟩ := by
    decide
  have h70 := broadcast_after_persist_payload_spec lifecycleExampleDB 7 1 100
    10 70 c1Body "new" id
  exact ⟨h70.2.1, (h70.2.2.2.1 _ hresp).1⟩

end WettyChat
